import Mathlib

/-!
Verification development for the slackelo rating system
(`elo.py`, `slackelo.py`, `sqlite_connector.py`).

Python floats are modelled as exact real numbers, Python `int` as `ℤ`,
Python's built-in `round` (banker's rounding, ties to even) as `pyRound`.
The SQLite tables are modelled as lists of records inside a `Store`
structure; every `execute_non_query` of the connector opens its own
connection and commits before closing it, so each primitive table write
below corresponds to one independently committed statement.
-/

namespace Slackelo

/-- Python's built-in `round`: nearest integer, ties go to the even
neighbour (banker's rounding). -/
noncomputable def pyRound (x : ℝ) : ℤ :=
  if Int.fract x = 1 / 2 then
    (if Even ⌊x⌋ then ⌊x⌋ else ⌊x⌋ + 1)
  else
    round x

/-- `elo.py calculate_elo_win`: new ratings (not deltas) for the winner and
loser of one pairwise game.  Note that the raw change `k * (1 - expected)`
is rounded here, inside the pairwise helper. -/
noncomputable def calculate_elo_win (winner_elo loser_elo : ℤ) (k_factor : ℤ) : ℤ × ℤ :=
  let expected_win : ℝ := 1 / (1 + (10 : ℝ) ^ ((((loser_elo - winner_elo : ℤ) : ℝ)) / 400))
  let expected_lose : ℝ := 1 / (1 + (10 : ℝ) ^ ((((winner_elo - loser_elo : ℤ) : ℝ)) / 400))
  (winner_elo + pyRound ((k_factor : ℝ) * (1 - expected_win)),
   loser_elo + pyRound ((k_factor : ℝ) * (0 - expected_lose)))

/-- `elo.py calculate_elo_draw`: new ratings for a drawn pairwise game. -/
noncomputable def calculate_elo_draw (player1_elo player2_elo : ℤ) (k_factor : ℤ) : ℤ × ℤ :=
  let expected_p1_score : ℝ := 1 / (1 + (10 : ℝ) ^ ((((player2_elo - player1_elo : ℤ) : ℝ)) / 400))
  let expected_p2_score : ℝ := 1 / (1 + (10 : ℝ) ^ ((((player1_elo - player2_elo : ℤ) : ℝ)) / 400))
  (player1_elo + pyRound ((k_factor : ℝ) * (1 / 2 - expected_p1_score)),
   player2_elo + pyRound ((k_factor : ℝ) * (1 / 2 - expected_p2_score)))

/-- `elo.py calculate_group_elo_with_draws`: for every ordered pair
`(i, j)`, `i ≠ j`, accumulate the (already rounded) pairwise change of the
corresponding helper divided by `n - 1` into a change buffer, then add the
rounded accumulated change of each player to their old rating.  Returns the
list of NEW ratings, in input order. -/
noncomputable def calculate_group_elo_with_draws (player_elos : List ℤ)
    (player_positions : List ℕ) (k_factor : ℤ) : List ℤ :=
  let n := player_elos.length
  let elo_changes : List ℝ :=
    (List.range n).foldl (fun changes i =>
      (List.range n).foldl (fun changes j =>
        if i = j then changes
        else
          let elo_i := player_elos.getD i 0
          let elo_j := player_elos.getD j 0
          let pos_i := player_positions.getD i 0
          let pos_j := player_positions.getD j 0
          if pos_i = pos_j then
            let p := calculate_elo_draw elo_i elo_j k_factor
            let changes := changes.set i (changes.getD i 0 + ((p.1 - elo_i : ℤ) : ℝ) / ((n : ℝ) - 1))
            changes.set j (changes.getD j 0 + ((p.2 - elo_j : ℤ) : ℝ) / ((n : ℝ) - 1))
          else if pos_i < pos_j then
            let p := calculate_elo_win elo_i elo_j k_factor
            let changes := changes.set i (changes.getD i 0 + ((p.1 - elo_i : ℤ) : ℝ) / ((n : ℝ) - 1))
            changes.set j (changes.getD j 0 + ((p.2 - elo_j : ℤ) : ℝ) / ((n : ℝ) - 1))
          else changes) changes)
      (List.replicate n (0 : ℝ))
  List.zipWith (fun e c => e + pyRound c) player_elos elo_changes

/-- Follows the spec's words (§4.1), for comparison with the source
function: each ordered pair contributes its RAW (unrounded) logistic
change `k·(1−e)` / `k·(0−e)` / `k·(½−e)` divided by `n − 1`; the per-player
sum is rounded exactly once, after full summation.  Returns the list of
integer deltas, in input order. -/
noncomputable def computeDeltasSpec (player_elos : List ℤ)
    (player_positions : List ℕ) (k_factor : ℤ) : List ℤ :=
  let n := player_elos.length
  let expected : ℤ → ℤ → ℝ := fun self other =>
    1 / (1 + (10 : ℝ) ^ ((((other - self : ℤ) : ℝ)) / 400))
  let raw_changes : List ℝ :=
    (List.range n).foldl (fun changes i =>
      (List.range n).foldl (fun changes j =>
        if i = j then changes
        else
          let elo_i := player_elos.getD i 0
          let elo_j := player_elos.getD j 0
          let pos_i := player_positions.getD i 0
          let pos_j := player_positions.getD j 0
          if pos_i = pos_j then
            let changes := changes.set i (changes.getD i 0 + (k_factor : ℝ) * (1 / 2 - expected elo_i elo_j) / ((n : ℝ) - 1))
            changes.set j (changes.getD j 0 + (k_factor : ℝ) * (1 / 2 - expected elo_j elo_i) / ((n : ℝ) - 1))
          else if pos_i < pos_j then
            let changes := changes.set i (changes.getD i 0 + (k_factor : ℝ) * (1 - expected elo_i elo_j) / ((n : ℝ) - 1))
            changes.set j (changes.getD j 0 + (k_factor : ℝ) * (0 - expected elo_j elo_i) / ((n : ℝ) - 1))
          else changes) changes)
      (List.replicate n (0 : ℝ))
  raw_changes.map pyRound

/-! ### The relational store (`slackelo.db`, accessed through
`sqlite_connector.py`).

Each table row becomes a record, each table a list (in insertion order).
`games.id` is the SQLite rowid: `next_game_id` plays the role of the
autoincrement counter, so a freshly inserted game gets id `next_game_id`.
`execute_non_query` opens a fresh connection, executes one statement,
commits and closes; a statement's effect is therefore durable on its own,
independently of the remaining statements of the calling operation. -/

/-- One row of `channel_players`. -/
structure ChannelPlayer where
  user_id : String
  channel_id : String
  rating : ℤ
  gambling : Bool
deriving DecidableEq

/-- One row of `channels`. -/
structure Channel where
  channel_id : String
  k_factor : Option ℤ
  team_id : Option String
deriving DecidableEq

/-- One row of `games`. -/
structure Game where
  id : ℕ
  channel_id : String
  timestamp : ℤ
deriving DecidableEq

/-- One row of `player_games`. -/
structure PlayerGame where
  user_id : String
  game_id : ℕ
  rating_before : ℤ
  rating_after : ℤ
  position : ℕ
  gambled : Bool
deriving DecidableEq

/-- The whole database. -/
structure Store where
  players : List String
  channels : List Channel
  channel_players : List ChannelPlayer
  games : List Game
  player_games : List PlayerGame
  next_game_id : ℕ
deriving DecidableEq

/-- Python truthiness of the optional `team_id` argument
(`elif team_id and ...`). -/
def teamTruthy : Option String → Bool
  | none => false
  | some t => t != ""

/-- `Slackelo.get_or_create_player` (only the side effect matters to
callers: the row has no attributes beyond its id). -/
def get_or_create_player (s : Store) (user_id : String) : Store :=
  if user_id ∈ s.players then s
  else { s with players := s.players ++ [user_id] }

/-- The `WHERE channel_id = ?` test on `channels` rows. -/
def chanMatch (channel_id : String) (c : Channel) : Bool :=
  c.channel_id == channel_id

/-- `Slackelo.get_or_create_channel`: inserts the channel with the default
k-factor 32 when absent; when present and `team_id` is truthy while the
stored `team_id` is NULL, updates it.  Returns the (re-queried) row. -/
def get_or_create_channel (s : Store) (channel_id : String)
    (team_id : Option String) : Channel × Store :=
  match s.channels.find? (chanMatch channel_id) with
  | none =>
      let row : Channel := ⟨channel_id, some 32, team_id⟩
      (row, { s with channels := s.channels ++ [row] })
  | some c =>
      if teamTruthy team_id && c.team_id == none then
        ({ c with team_id := team_id },
         { s with channels := s.channels.map (fun ch =>
             if ch.channel_id == channel_id && ch.team_id == none then
               { ch with team_id := team_id }
             else ch) })
      else (c, s)

/-- The `WHERE user_id = ? AND channel_id = ?` test on `channel_players`
rows, shared by every membership lookup and update. -/
def keyMatch (user_id channel_id : String) (cp : ChannelPlayer) : Bool :=
  cp.user_id == user_id && cp.channel_id == channel_id

/-- `Slackelo.get_or_create_channel_player`: ensures player and channel
rows exist, then fetches the membership row, inserting it with rating 1000
and gambling flag off when absent. -/
def get_or_create_channel_player (s : Store) (user_id channel_id : String) :
    ChannelPlayer × Store :=
  let s1 := get_or_create_player s user_id
  let s2 := (get_or_create_channel s1 channel_id none).2
  match s2.channel_players.find? (keyMatch user_id channel_id) with
  | some cp => (cp, s2)
  | none =>
      let row : ChannelPlayer := ⟨user_id, channel_id, 1000, false⟩
      (row, { s2 with channel_players := s2.channel_players ++ [row] })

/-- `Slackelo.get_channel_k_factor`. -/
def get_channel_k_factor (s : Store) (channel_id : String) : ℤ × Store :=
  let r := get_or_create_channel s channel_id none
  (r.1.k_factor.getD 32, r.2)

/-- `Slackelo.is_player_gambling`. -/
def is_player_gambling (s : Store) (user_id channel_id : String) : Bool × Store :=
  let r := get_or_create_channel_player s user_id channel_id
  (r.1.gambling, r.2)

/-- `Slackelo.get_player_channel_rating`. -/
def get_player_channel_rating (s : Store) (user_id channel_id : String) : ℤ × Store :=
  let r := get_or_create_channel_player s user_id channel_id
  (r.1.rating, r.2)

/-- The flattening of `ranked_player_ids` in `create_game`/`simulate_game`. -/
def flattenRanked (ranked_player_ids : List (List String)) : List String :=
  ranked_player_ids.flatten

/-- The `player_positions` map of `create_game`/`simulate_game`: position 1
for the first rank group, each later group's position grows by the size of
the previous group.  Keys are unique because duplicates are rejected. -/
def buildPositions (ranked_player_ids : List (List String)) : List (String × ℕ) :=
  (ranked_player_ids.foldl (fun acc rank_group =>
    (acc.1 ++ rank_group.map (fun player_id => (player_id, acc.2)),
     acc.2 + rank_group.length))
    (([] : List (String × ℕ)), 1)).1

/-- Dictionary access `player_positions[player_id]`. -/
def lookupPos (positions : List (String × ℕ)) (user_id : String) : ℕ :=
  ((positions.find? (fun p => p.1 == user_id)).map (fun p => p.2)).getD 0

/-- The `create_game` loop that fetches (creating on demand) the channel
player row of every participant, in flattened order. -/
def collectChannelPlayers (s : Store) (user_ids : List String)
    (channel_id : String) : List ChannelPlayer × Store :=
  match user_ids with
  | [] => ([], s)
  | user_id :: rest =>
      let r := get_or_create_channel_player s user_id channel_id
      let rr := collectChannelPlayers r.2 rest channel_id
      (r.1 :: rr.1, rr.2)

/-- The state right after `create_game`'s `INSERT INTO games` statement
has committed (this single statement is its own transaction).  The new
game's id is the autoincrement value `next_game_id`. -/
def create_game_inserted (s : Store) (channel_id : String)
    (team_id : Option String) (timestamp : ℤ) : Store :=
  let s1 := (get_or_create_channel s channel_id team_id).2
  { s1 with games := s1.games ++ [⟨s1.next_game_id, channel_id, timestamp⟩],
            next_game_id := s1.next_game_id + 1 }

/-- The per-participant update loop at the end of `create_game`: insert the
`player_games` row (with the rating-before, the computed new rating, the
position and the gambling flag) and update the membership row, clearing the
gambling flag when it was set.  `pcs` pairs each fetched channel-player row
with its entry of `rating_changes`. -/
def applyGameUpdates (s : Store) (game_id : ℕ) (channel_id : String)
    (player_positions : List (String × ℕ)) (pcs : List (ChannelPlayer × ℤ)) : Store :=
  match pcs with
  | [] => s
  | pc :: rest =>
      let player := pc.1
      let is_gambling := player.gambling
      let multiplier : ℤ := if is_gambling then 2 else 1
      let adjusted_change := pc.2 * multiplier
      let new_rating := player.rating + adjusted_change
      let st1 := { s with player_games := s.player_games ++
        ([⟨player.user_id, game_id, player.rating, new_rating,
          lookupPos player_positions player.user_id, is_gambling⟩] : List PlayerGame) }
      let st2 := { st1 with channel_players := st1.channel_players.map (fun cp =>
          if keyMatch player.user_id channel_id cp then
            { cp with rating := new_rating,
                      gambling := if is_gambling then false else cp.gambling }
          else cp) }
      applyGameUpdates st2 game_id channel_id player_positions rest

/-- `Slackelo.create_game`.  The wall-clock `int(time.time())` is passed in
as `timestamp`.  An exception leaves the returned store as it was when the
exception was raised (both validations run before any write). -/
noncomputable def create_game (s : Store) (channel_id : String)
    (ranked_player_ids : List (List String)) (team_id : Option String)
    (timestamp : ℤ) : Store × Except String ℕ :=
  let flat_player_ids := flattenRanked ranked_player_ids
  if flat_player_ids.length < 2 then
    (s, Except.error "A game must have at least 2 players")
  else if flat_player_ids.length ≠ flat_player_ids.dedup.length then
    (s, Except.error "A player cannot be in multiple positions")
  else
    let game_id := s.next_game_id
    let s2 := create_game_inserted s channel_id team_id timestamp
    let player_positions := buildPositions ranked_player_ids
    let col := collectChannelPlayers s2 flat_player_ids channel_id
    let kf := get_channel_k_factor col.2 channel_id
    let old_ratings := col.1.map (fun p => p.rating)
    let rating_changes := calculate_group_elo_with_draws old_ratings
      (col.1.map (fun p => lookupPos player_positions p.user_id)) kf.1
    (applyGameUpdates kf.2 game_id channel_id player_positions
      (col.1.zip rating_changes), Except.ok game_id)

/-- The `simulate_game` loop building `pre_game_ratings` (insertion-ordered
dict, keys are the distinct flattened player ids). -/
def collectRatings (s : Store) (user_ids : List String) (channel_id : String) :
    List (String × ℤ) × Store :=
  match user_ids with
  | [] => ([], s)
  | user_id :: rest =>
      let r := get_player_channel_rating s user_id channel_id
      let rr := collectRatings r.2 rest channel_id
      ((user_id, r.1) :: rr.1, rr.2)

/-- The `simulate_game` loop building `post_game_ratings`: each player's
current rating plus their `rating_changes` entry, doubled while the player
is gambling (read through `is_player_gambling`, never written). -/
def computePost (s : Store) (channel_id : String)
    (pcs : List ((String × ℤ) × ℤ)) : List (String × ℤ) × Store :=
  match pcs with
  | [] => ([], s)
  | pc :: rest =>
      let r := is_player_gambling s pc.1.1 channel_id
      let multiplier : ℤ := if r.1 then 2 else 1
      let adjusted_change := pc.2 * multiplier
      let rr := computePost r.2 channel_id rest
      ((pc.1.1, pc.1.2 + adjusted_change) :: rr.1, rr.2)

/-- `Slackelo.simulate_game`: same validations and same rating pipeline as
`create_game`, but nothing is written; returns
`(pre_game_ratings, post_game_ratings, player_positions)`. -/
noncomputable def simulate_game (s : Store) (channel_id : String)
    (ranked_player_ids : List (List String)) (team_id : Option String) :
    Store × Except String (List (String × ℤ) × List (String × ℤ) × List (String × ℕ)) :=
  let flat_player_ids := flattenRanked ranked_player_ids
  if flat_player_ids.length < 2 then
    (s, Except.error "A game must have at least 2 players")
  else if flat_player_ids.length ≠ flat_player_ids.dedup.length then
    (s, Except.error "A player cannot be in multiple positions")
  else
    let s1 := (get_or_create_channel s channel_id team_id).2
    let player_positions := buildPositions ranked_player_ids
    let pre := collectRatings s1 flat_player_ids channel_id
    let kf := get_channel_k_factor pre.2 channel_id
    let current_ratings := pre.1.map (fun p => p.2)
    let rating_changes := calculate_group_elo_with_draws current_ratings
      (flat_player_ids.map (lookupPos player_positions)) kf.1
    let post := computePost kf.2 channel_id (pre.1.zip rating_changes)
    (post.2, Except.ok (pre.1, post.1, player_positions))

/-- The `SELECT ... ORDER BY g.timestamp DESC LIMIT 1` of
`undo_last_game`: the channel's game with the largest timestamp (among
equal timestamps SQLite's order is unspecified; this model keeps the
earliest-inserted one). -/
def lastGame (s : Store) (channel_id : String) : Option Game :=
  (s.games.filter (fun g => g.channel_id == channel_id)).foldl
    (fun acc g => match acc with
      | none => some g
      | some h => if h.timestamp < g.timestamp then some g else some h) none

/-- The per-participant restore loop of `undo_last_game`: each
`player_games` row of the undone game resets the matching membership row's
rating to its stored `rating_before`. -/
def undoRatings (s : Store) (channel_id : String) (pgs : List PlayerGame) : Store :=
  match pgs with
  | [] => s
  | pg :: rest =>
      undoRatings
        { s with channel_players := s.channel_players.map (fun cp =>
            if keyMatch pg.user_id channel_id cp then
              { cp with rating := pg.rating_before }
            else cp) }
        channel_id rest

/-- `Slackelo.undo_last_game`: reset each participant's membership rating
to the stored `rating_before`, then delete the game row and its
`player_games` rows.  The gambling flag is not touched. -/
def undo_last_game (s : Store) (channel_id : String) : Store × Except String ℤ :=
  match lastGame s channel_id with
  | none => (s, Except.error "No games to undo")
  | some g =>
      let pgs := s.player_games.filter (fun pg => pg.game_id == g.id)
      let s1 := undoRatings s channel_id pgs
      ({ s1 with games := s1.games.filter (fun gg => gg.id != g.id),
                 player_games := s1.player_games.filter (fun pg => pg.game_id != g.id) },
       Except.ok g.timestamp)

/-- The columns of `channel_players` that the leaderboard query reads. -/
def membershipView (s : Store) : List (String × String × ℤ) :=
  s.channel_players.map (fun cp => (cp.user_id, cp.channel_id, cp.rating))

/-- The channel of the game a `player_games` row joins to, if any. -/
def gameChannelOf (s : Store) (game_id : ℕ) : Option String :=
  (s.games.find? (fun g => g.id == game_id)).map (fun g => g.channel_id)

/-- The `games_played` column of the leaderboard query.  The LEFT JOINs
together with `WHERE g.channel_id = ? OR g.channel_id IS NULL` mean: a
player with no `player_games` rows at all gets count 0 (the NULL-padded
row survives the filter), while a player whose rows all join to other
channels loses every row and drops out of the result (`none`). -/
def lbCount (s : Store) (user_id channel_id : String) : Option ℕ :=
  let pgs := s.player_games.filter (fun pg => pg.user_id == user_id)
  if pgs.isEmpty then some 0
  else
    let passing := pgs.filter (fun pg =>
      match gameChannelOf s pg.game_id with
      | some ch => ch == channel_id
      | none => true)
    if passing.isEmpty then none else some passing.length

/-- Stable insertion into a list sorted by strictly decreasing key
(equal keys keep their existing order). -/
def insertDescBy {α : Type} (key : α → ℤ) (a : α) : List α → List α
  | [] => [a]
  | b :: l => if key b < key a then a :: b :: l else b :: insertDescBy key a l

/-- Stable descending sort, modelling `ORDER BY ... DESC` with ties kept
in table order. -/
def sortDescBy {α : Type} (key : α → ℤ) (l : List α) : List α :=
  l.foldl (fun acc a => insertDescBy key a acc) []

/-- `Slackelo.get_channel_leaderboard`: `(user_id, rating, games_played)`
rows of the channel's members (joined against `players`), rating
descending, truncated to `limit`. -/
def get_channel_leaderboard (s : Store) (channel_id : String) (limit : ℕ) :
    List (String × ℤ × ℕ) :=
  let entries := (membershipView s).filterMap (fun v =>
    if v.2.1 == channel_id && s.players.contains v.1 then
      match lbCount s v.1 channel_id with
      | some n => some (v.1, v.2.2, n)
      | none => none
    else none)
  (sortDescBy (fun e => e.2.1) entries).take limit

/-- One row of `Slackelo.get_player_game_history`'s result. -/
structure HistoryEntry where
  game_id : ℕ
  rating_before : ℤ
  rating_after : ℤ
  position : ℕ
  timestamp : ℤ
  gambled : Bool
deriving DecidableEq

/-- `Slackelo.get_player_game_history`: the player's `player_games` rows
joined to this channel's games, timestamp descending, truncated. -/
def get_player_game_history (s : Store) (user_id channel_id : String)
    (limit : ℕ) : List HistoryEntry :=
  let rows := s.player_games.filterMap (fun pg =>
    if pg.user_id == user_id then
      match s.games.find? (fun g => g.id == pg.game_id) with
      | some g =>
          if g.channel_id == channel_id then
            some ⟨pg.game_id, pg.rating_before, pg.rating_after, pg.position,
                  g.timestamp, pg.gambled⟩
          else none
      | none => none
    else none)
  (sortDescBy (fun r => r.timestamp) rows).take limit

/-- The rating column of the (unique) membership row, if present. -/
def storedRating (s : Store) (user_id channel_id : String) : Option ℤ :=
  (s.channel_players.find? (keyMatch user_id channel_id)).map (fun cp => cp.rating)

/-- The gambling column of the (unique) membership row, if present. -/
def storedGambling (s : Store) (user_id channel_id : String) : Option Bool :=
  (s.channel_players.find? (keyMatch user_id channel_id)).map (fun cp => cp.gambling)

/-- Whether a `player_games` row joins to a game of this channel
(`JOIN games g ON pg.game_id = g.id WHERE g.channel_id = ?`). -/
def pgInChannel (s : Store) (channel_id : String) (pg : PlayerGame) : Bool :=
  match s.games.find? (fun g => g.id == pg.game_id) with
  | some g => g.channel_id == channel_id
  | none => false

/-- The join rows feeding the statistics queries. -/
def statRows (s : Store) (channel_id : String) : List PlayerGame :=
  s.player_games.filter (pgInChannel s channel_id)

/-- The per-contest rating changes of one player in one channel. -/
def ratingChanges (s : Store) (channel_id user_id : String) : List ℤ :=
  ((statRows s channel_id).filter (fun pg => pg.user_id == user_id)).map
    (fun pg => pg.rating_after - pg.rating_before)

/-- `AVG((rating_after - rating_before) * (rating_after - rating_before))`:
the mean of the squared rating changes (the raw second moment, aliased
`variance` by the SQL). -/
def meanSquaredChange (l : List ℤ) : ℚ :=
  ((l.map (fun d => (d : ℚ) * (d : ℚ))).sum) / (l.length : ℚ)

/-- `GROUP BY pg.user_id ... HAVING game_count >= 3`: the channel's
players with at least 3 contests, in first-appearance order. -/
def qualifiedUsers (s : Store) (channel_id : String) : List String :=
  (((statRows s channel_id).map (fun pg => pg.user_id)).dedup).filter
    (fun u => 3 ≤ (ratingChanges s channel_id u).length)

/-- `ORDER BY variance DESC LIMIT 1` over the grouped rows (ties keep the
earlier group, SQLite's order among ties being unspecified). -/
def argmaxBy (f : String → ℚ) (l : List String) : Option String :=
  l.foldl (fun acc u => match acc with
    | none => some u
    | some v => if f v < f u then some u else some v) none

/-- `ORDER BY variance ASC LIMIT 1` over the grouped rows. -/
def argminBy (f : String → ℚ) (l : List String) : Option String :=
  l.foldl (fun acc u => match acc with
    | none => some u
    | some v => if f u < f v then some u else some v) none

/-- The `most_volatile` entry of `Slackelo.get_channel_statistics`: the
qualified player maximising `AVG(change * change)`. -/
def get_channel_statistics_most_volatile (s : Store) (channel_id : String) :
    Option String :=
  argmaxBy (fun u => meanSquaredChange (ratingChanges s channel_id u))
    (qualifiedUsers s channel_id)

/-- The `most_consistent` entry of `Slackelo.get_channel_statistics`: the
qualified player minimising `AVG(change * change)`. -/
def get_channel_statistics_most_consistent (s : Store) (channel_id : String) :
    Option String :=
  argminBy (fun u => meanSquaredChange (ratingChanges s channel_id u))
    (qualifiedUsers s channel_id)

/-- Follows the spec's words: the statistical variance of a list of rating
changes, the mean of the squared deviations from their mean. -/
def varianceSpec (l : List ℤ) : ℚ :=
  let m := ((l.map (fun d => (d : ℚ))).sum) / (l.length : ℚ)
  ((l.map (fun d => ((d : ℚ) - m) * ((d : ℚ) - m))).sum) / (l.length : ℚ)

/-- §3 invariant: every contest has at least two participation records. -/
def contestsHaveTwoParticipants (s : Store) : Prop :=
  ∀ g ∈ s.games, 2 ≤ (s.player_games.filter (fun pg => pg.game_id == g.id)).length

/-- The membership keys `(user_id, channel_id)` are unique — the table's
primary key, maintained by every operation of the source. -/
def keysUnique (s : Store) : Prop :=
  (s.channel_players.map (fun cp => (cp.user_id, cp.channel_id))).Nodup

/-- Game ids (and the ids referenced by `player_games`) stay below the
autoincrement counter — what SQLite's rowid allocation guarantees. -/
def idsBounded (s : Store) : Prop :=
  (∀ g ∈ s.games, g.id < s.next_game_id) ∧
  (∀ pg ∈ s.player_games, pg.game_id < s.next_game_id)

instance (s : Store) : Decidable (contestsHaveTwoParticipants s) := by
  unfold contestsHaveTwoParticipants
  infer_instance

instance (s : Store) : Decidable (keysUnique s) := by
  unfold keysUnique
  infer_instance

instance (s : Store) : Decidable (idsBounded s) := by
  unfold idsBounded
  infer_instance

/-- The membership update one participant contributes in `create_game`'s
final loop (`pc` is the fetched row paired with its `rating_changes`
entry), as a function of one `channel_players` row. -/
def applyUpd (channel_id : String) (pc : ChannelPlayer × ℤ) (cp : ChannelPlayer) : ChannelPlayer :=
  if keyMatch pc.1.user_id channel_id cp then
    { cp with rating := pc.1.rating + pc.2 * (if pc.1.gambling then 2 else 1),
              gambling := if pc.1.gambling then false else cp.gambling }
  else cp

/-- The membership update one `player_games` row contributes in
`undo_last_game`'s restore loop. -/
def undoUpd (channel_id : String) (pg : PlayerGame) (cp : ChannelPlayer) : ChannelPlayer :=
  if keyMatch pg.user_id channel_id cp then { cp with rating := pg.rating_before }
  else cp

/-- All of `create_game`'s membership updates, composed in loop order. -/
def applyFold (channel_id : String) (pcs : List (ChannelPlayer × ℤ))
    (cp : ChannelPlayer) : ChannelPlayer :=
  pcs.foldl (fun c pc => applyUpd channel_id pc c) cp

/-- All of `undo_last_game`'s membership updates, composed in loop order. -/
def undoFold (channel_id : String) (pgs : List PlayerGame)
    (cp : ChannelPlayer) : ChannelPlayer :=
  pgs.foldl (fun c pg => undoUpd channel_id pg c) cp

/-- The `player_games` row `create_game` inserts for one participant. -/
def gameRow (game_id : ℕ) (player_positions : List (String × ℕ))
    (pc : ChannelPlayer × ℤ) : PlayerGame :=
  ⟨pc.1.user_id, game_id, pc.1.rating,
   pc.1.rating + pc.2 * (if pc.1.gambling then 2 else 1),
   lookupPos player_positions pc.1.user_id, pc.1.gambling⟩

/-- Concrete store: players A and B, both members of channel C at rating
1000, no games yet. -/
def storeAB : Store :=
  ⟨["A", "B"], [⟨"C", some 32, none⟩],
   [⟨"A", "C", 1000, false⟩, ⟨"B", "C", 1000, false⟩], [], [], 1⟩

/-- Concrete store: like `storeAB` but A's doubling flag is set. -/
def storeABg : Store :=
  ⟨["A", "B"], [⟨"C", some 32, none⟩],
   [⟨"A", "C", 1000, true⟩, ⟨"B", "C", 1000, false⟩], [], [], 1⟩

/-- Concrete store: only player A is a member of channel C. -/
def storeA : Store :=
  ⟨["A"], [⟨"C", some 32, none⟩], [⟨"A", "C", 1000, false⟩], [], [], 1⟩

/-- Concrete store with a recorded history in channel C: A's per-contest
changes are `[10, 10, 10]` (variance 0, mean square 100), B's are
`[-6, 0, 6]` (variance 24, mean square 24). -/
def storeStats : Store :=
  ⟨["A", "B"], [⟨"C", some 32, none⟩],
   [⟨"A", "C", 1030, false⟩, ⟨"B", "C", 1000, false⟩],
   [⟨1, "C", 1⟩, ⟨2, "C", 2⟩, ⟨3, "C", 3⟩],
   [⟨"A", 1, 1000, 1010, 1, false⟩, ⟨"B", 1, 1000, 994, 2, false⟩,
    ⟨"A", 2, 1010, 1020, 1, false⟩, ⟨"B", 2, 994, 994, 2, false⟩,
    ⟨"A", 3, 1020, 1030, 1, false⟩, ⟨"B", 3, 994, 1000, 2, false⟩],
   4⟩

end Slackelo

namespace Slackelo

/-! ### Basic facts about `pyRound` -/

lemma fract_intCast_ne_half (n : ℤ) : Int.fract ((n : ℝ)) ≠ 1 / 2 := by
  rw [Int.fract_intCast]
  norm_num

lemma pyRound_intCast (n : ℤ) : pyRound ((n : ℝ)) = n := by
  rw [pyRound, if_neg (fract_intCast_ne_half n), round_intCast]

lemma pyRound_of_lt_of_lt (x : ℝ) (n : ℤ) (h1 : (n : ℝ) - 1 / 2 < x)
    (h2 : x < (n : ℝ) + 1 / 2) : pyRound x = n := by
  have hfr : Int.fract x ≠ 1 / 2 := by
    intro hf
    have hx : x = (⌊x⌋ : ℝ) + 1 / 2 := by
      have h := Int.floor_add_fract x
      rw [hf] at h
      linarith
    rw [hx] at h1 h2
    have hlt : (n : ℝ) - 1 < (⌊x⌋ : ℝ) := by linarith
    have hgt : (⌊x⌋ : ℝ) < (n : ℝ) := by linarith
    have hlt' : n - 1 < ⌊x⌋ := by exact_mod_cast hlt
    have hgt' : ⌊x⌋ < n := by exact_mod_cast hgt
    omega
  rw [pyRound, if_neg hfr, round_eq]
  rw [Int.floor_eq_iff]
  constructor
  · linarith
  · linarith

lemma fract_half_add_int (n : ℤ) : Int.fract ((n : ℝ) + 1 / 2) = 1 / 2 := by
  rw [Int.fract_int_add]
  rw [Int.fract_eq_self.mpr (by norm_num)]

lemma floor_half_add_int (n : ℤ) : ⌊(n : ℝ) + 1 / 2⌋ = n := by
  rw [Int.floor_int_add]
  norm_num

lemma pyRound_even_add_half (n : ℤ) (hn : Even n) :
    pyRound ((n : ℝ) + 1 / 2) = n := by
  rw [pyRound, if_pos (fract_half_add_int n), floor_half_add_int, if_pos hn]

/-! ### Bounds on the logistic powers `10 ^ (d / 400)` -/

lemma rpow_ratio_lt_of_pow_lt (x c : ℝ) (m n : ℕ) (hx : 1 ≤ x) (hc : 0 < c)
    (hn : 0 < n) (h : x ^ m < c ^ n) : x ^ ((m : ℝ) / (n : ℝ)) < c := by
  have hx0 : (0 : ℝ) ≤ x := by linarith
  have hy : (x ^ ((m : ℝ) / (n : ℝ))) ^ n = x ^ m := by
    rw [← Real.rpow_natCast (x ^ ((m : ℝ) / (n : ℝ))) n, ← Real.rpow_mul hx0,
      div_mul_cancel₀ _ (by positivity : ((n : ℝ)) ≠ 0), Real.rpow_natCast]
  have hlt : (x ^ ((m : ℝ) / (n : ℝ))) ^ n < c ^ n := by rw [hy]; exact h
  exact lt_of_pow_lt_pow_left₀ n (le_of_lt hc) hlt

lemma lt_rpow_ratio_of_lt_pow (x c : ℝ) (m n : ℕ) (hx : 1 ≤ x) (hc : 0 < c)
    (hn : 0 < n) (h : c ^ n < x ^ m) : c < x ^ ((m : ℝ) / (n : ℝ)) := by
  have hx0 : (0 : ℝ) ≤ x := by linarith
  have hy : (x ^ ((m : ℝ) / (n : ℝ))) ^ n = x ^ m := by
    rw [← Real.rpow_natCast (x ^ ((m : ℝ) / (n : ℝ))) n, ← Real.rpow_mul hx0,
      div_mul_cancel₀ _ (by positivity : ((n : ℝ)) ≠ 0), Real.rpow_natCast]
  have hlt : c ^ n < (x ^ ((m : ℝ) / (n : ℝ))) ^ n := by rw [hy]; exact h
  exact lt_of_pow_lt_pow_left₀ n (by positivity) hlt

lemma ten_rpow_ten_div_400_lt : (10 : ℝ) ^ ((10 : ℝ) / 400) < 33 / 31 := by
  have := rpow_ratio_lt_of_pow_lt 10 (33 / 31) 1 40 (by norm_num) (by norm_num)
    (by norm_num) (by norm_num)
  rw [show ((1 : ℕ) : ℝ) / ((40 : ℕ) : ℝ) = (10 : ℝ) / 400 by norm_num] at this
  exact this

lemma lt_ten_rpow_ten_div_400 : (823 : ℝ) / 777 < (10 : ℝ) ^ ((10 : ℝ) / 400) := by
  have := lt_rpow_ratio_of_lt_pow 10 (823 / 777) 1 40 (by norm_num) (by norm_num)
    (by norm_num) (by norm_num)
  rw [show ((1 : ℕ) : ℝ) / ((40 : ℕ) : ℝ) = (10 : ℝ) / 400 by norm_num] at this
  exact this

lemma ten_rpow_twelve_div_400_lt : (10 : ℝ) ^ ((12 : ℝ) / 400) < 35 / 29 := by
  have := rpow_ratio_lt_of_pow_lt 10 (35 / 29) 3 100 (by norm_num) (by norm_num)
    (by norm_num) (by norm_num)
  rw [show ((3 : ℕ) : ℝ) / ((100 : ℕ) : ℝ) = (12 : ℝ) / 400 by norm_num] at this
  exact this

lemma lt_ten_rpow_twelve_div_400 : (331 : ℝ) / 309 < (10 : ℝ) ^ ((12 : ℝ) / 400) := by
  have := lt_rpow_ratio_of_lt_pow 10 (331 / 309) 3 100 (by norm_num) (by norm_num)
    (by norm_num) (by norm_num)
  rw [show ((3 : ℕ) : ℝ) / ((100 : ℕ) : ℝ) = (12 : ℝ) / 400 by norm_num] at this
  exact this

/-! ### Concrete evaluations of the pairwise calculator -/

lemma pyRound_sixteen : pyRound (16 : ℝ) = 16 := by
  rw [show (16 : ℝ) = ((16 : ℤ) : ℝ) by norm_num, pyRound_intCast]

lemma pyRound_neg_sixteen : pyRound (-16 : ℝ) = -16 := by
  rw [show (-16 : ℝ) = ((-16 : ℤ) : ℝ) by norm_num, pyRound_intCast]

lemma calculate_elo_win_equal : calculate_elo_win 1000 1000 32 = (1016, 984) := by
  unfold calculate_elo_win
  have h0 : (((1000 - 1000 : ℤ) : ℝ)) / 400 = 0 := by norm_num
  rw [h0, Real.rpow_zero]
  dsimp only
  have h16 : ((32 : ℤ) : ℝ) * (1 - 1 / (1 + 1)) = (16 : ℝ) := by norm_num
  have hm16 : ((32 : ℤ) : ℝ) * (0 - 1 / (1 + 1)) = (-16 : ℝ) := by norm_num
  rw [h16, hm16, pyRound_sixteen, pyRound_neg_sixteen]
  norm_num

lemma calc_group_equal_two (p q : ℕ) (hpq : p < q) :
    calculate_group_elo_with_draws [1000, 1000] [p, q] 32 = [1016, 984] := by
  unfold calculate_group_elo_with_draws
  simp only [List.length_cons, List.length_nil, List.range_succ, List.range_zero,
    List.nil_append, List.cons_append, List.foldl_cons, List.foldl_nil,
    List.replicate_succ, List.replicate_zero]
  norm_num [hpq, hpq.ne, Nat.lt_asymm hpq, (hpq.ne).symm, List.getD, calculate_elo_win_equal,
    List.set, pyRound_sixteen, pyRound_neg_sixteen]

lemma calc_group_equal_two_swap (p q : ℕ) (hpq : p < q) :
    calculate_group_elo_with_draws [1000, 1000] [q, p] 32 = [984, 1016] := by
  unfold calculate_group_elo_with_draws
  simp only [List.length_cons, List.length_nil, List.range_succ, List.range_zero,
    List.nil_append, List.cons_append, List.foldl_cons, List.foldl_nil,
    List.replicate_succ, List.replicate_zero]
  norm_num [hpq, hpq.ne, Nat.lt_asymm hpq, (hpq.ne).symm, List.getD, calculate_elo_win_equal,
    List.set, pyRound_sixteen, pyRound_neg_sixteen]

lemma win_term_16 (t : ℝ) (h1 : 1 < t) (h2 : t < 33 / 31) :
    pyRound (((32 : ℤ) : ℝ) * (1 - 1 / (1 + t))) = 16 := by
  have hpos : (0 : ℝ) < 1 + t := by linarith
  have hrw : ((32 : ℤ) : ℝ) * (1 - 1 / (1 + t)) = 32 * t / (1 + t) := by
    push_cast
    field_simp
  rw [hrw]
  apply pyRound_of_lt_of_lt
  · rw [lt_div_iff₀ hpos]
    push_cast
    linarith
  · rw [div_lt_iff₀ hpos]
    push_cast
    linarith

lemma win_term_17 (u : ℝ) (h1 : 331 / 309 < u) (h2 : u < 35 / 29) :
    pyRound (((32 : ℤ) : ℝ) * (1 - 1 / (1 + u))) = 17 := by
  have hpos : (0 : ℝ) < 1 + u := by linarith
  have hrw : ((32 : ℤ) : ℝ) * (1 - 1 / (1 + u)) = 32 * u / (1 + u) := by
    push_cast
    field_simp
  rw [hrw]
  apply pyRound_of_lt_of_lt
  · rw [lt_div_iff₀ hpos]
    push_cast
    linarith
  · rw [div_lt_iff₀ hpos]
    push_cast
    linarith

lemma lose_term_m16 (s : ℝ) (h1 : 31 / 33 < s) (h2 : s < 777 / 823) :
    pyRound (((32 : ℤ) : ℝ) * (0 - 1 / (1 + s))) = -16 := by
  have hpos : (0 : ℝ) < 1 + s := by linarith
  have hrw : ((32 : ℤ) : ℝ) * (0 - 1 / (1 + s)) = -(32 / (1 + s)) := by
    push_cast
    field_simp
  rw [hrw]
  apply pyRound_of_lt_of_lt
  · push_cast
    rw [show (-16 : ℝ) - 1 / 2 = -(33 / 2) by norm_num, neg_lt_neg_iff,
      div_lt_iff₀ hpos]
    linarith
  · push_cast
    rw [show (-16 : ℝ) + 1 / 2 = -(31 / 2) by norm_num, neg_lt_neg_iff,
      lt_div_iff₀ hpos]
    linarith

lemma lose_term_m17 (s : ℝ) (h1 : 29 / 35 < s) (h2 : s < 31 / 33) :
    pyRound (((32 : ℤ) : ℝ) * (0 - 1 / (1 + s))) = -17 := by
  have hpos : (0 : ℝ) < 1 + s := by linarith
  have hrw : ((32 : ℤ) : ℝ) * (0 - 1 / (1 + s)) = -(32 / (1 + s)) := by
    push_cast
    field_simp
  rw [hrw]
  apply pyRound_of_lt_of_lt
  · push_cast
    rw [show (-17 : ℝ) - 1 / 2 = -(35 / 2) by norm_num, neg_lt_neg_iff,
      div_lt_iff₀ hpos]
    linarith
  · push_cast
    rw [show (-17 : ℝ) + 1 / 2 = -(33 / 2) by norm_num, neg_lt_neg_iff,
      lt_div_iff₀ hpos]
    linarith

lemma ten_rpow_neg_ten_gt : (31 : ℝ) / 33 < (10 : ℝ) ^ ((-10 : ℝ) / 400) := by
  have hpos : (0 : ℝ) < (10 : ℝ) ^ ((10 : ℝ) / 400) := Real.rpow_pos_of_pos (by norm_num) _
  have h := ten_rpow_ten_div_400_lt
  have hinv := inv_strictAnti₀ hpos h
  rw [show ((-10 : ℝ)) / 400 = -((10 : ℝ) / 400) by norm_num,
    Real.rpow_neg (by norm_num : (0 : ℝ) ≤ 10)]
  calc (31 : ℝ) / 33 = (33 / 31 : ℝ)⁻¹ := by norm_num
  _ < ((10 : ℝ) ^ ((10 : ℝ) / 400))⁻¹ := hinv

lemma ten_rpow_neg_ten_lt : (10 : ℝ) ^ ((-10 : ℝ) / 400) < 777 / 823 := by
  have h := lt_ten_rpow_ten_div_400
  have hinv := inv_strictAnti₀ (by norm_num : (0 : ℝ) < 823 / 777) h
  rw [show ((-10 : ℝ)) / 400 = -((10 : ℝ) / 400) by norm_num,
    Real.rpow_neg (by norm_num : (0 : ℝ) ≤ 10)]
  calc ((10 : ℝ) ^ ((10 : ℝ) / 400))⁻¹ < (823 / 777 : ℝ)⁻¹ := hinv
  _ = (777 / 823 : ℝ) := by norm_num

lemma ten_rpow_neg_twelve_gt : (29 : ℝ) / 35 < (10 : ℝ) ^ ((-12 : ℝ) / 400) := by
  have hpos : (0 : ℝ) < (10 : ℝ) ^ ((12 : ℝ) / 400) := Real.rpow_pos_of_pos (by norm_num) _
  have h := ten_rpow_twelve_div_400_lt
  have hinv := inv_strictAnti₀ hpos h
  rw [show ((-12 : ℝ)) / 400 = -((12 : ℝ) / 400) by norm_num,
    Real.rpow_neg (by norm_num : (0 : ℝ) ≤ 10)]
  calc (29 : ℝ) / 35 = (35 / 29 : ℝ)⁻¹ := by norm_num
  _ < ((10 : ℝ) ^ ((12 : ℝ) / 400))⁻¹ := hinv

lemma ten_rpow_neg_twelve_lt : (10 : ℝ) ^ ((-12 : ℝ) / 400) < 31 / 33 := by
  have h := lt_ten_rpow_twelve_div_400
  have hinv := inv_strictAnti₀ (by norm_num : (0 : ℝ) < 331 / 309) h
  rw [show ((-12 : ℝ)) / 400 = -((12 : ℝ) / 400) by norm_num,
    Real.rpow_neg (by norm_num : (0 : ℝ) ≤ 10)]
  calc ((10 : ℝ) ^ ((12 : ℝ) / 400))⁻¹ < (331 / 309 : ℝ)⁻¹ := hinv
  _ < (31 / 33 : ℝ) := by norm_num

lemma calculate_elo_win_1000_1010 : calculate_elo_win 1000 1010 32 = (1016, 994) := by
  unfold calculate_elo_win
  dsimp only
  rw [show (((1010 : ℤ) - 1000 : ℤ) : ℝ) = (10 : ℝ) by norm_num,
    show (((1000 : ℤ) - 1010 : ℤ) : ℝ) = (-10 : ℝ) by norm_num]
  rw [win_term_16 _ (lt_trans (by norm_num) lt_ten_rpow_ten_div_400) ten_rpow_ten_div_400_lt]
  rw [lose_term_m16 _ ten_rpow_neg_ten_gt ten_rpow_neg_ten_lt]
  norm_num

lemma calculate_elo_win_1000_1012 : calculate_elo_win 1000 1012 32 = (1017, 995) := by
  unfold calculate_elo_win
  dsimp only
  rw [show (((1012 : ℤ) - 1000 : ℤ) : ℝ) = (12 : ℝ) by norm_num,
    show (((1000 : ℤ) - 1012 : ℤ) : ℝ) = (-12 : ℝ) by norm_num]
  rw [win_term_17 _ lt_ten_rpow_twelve_div_400 ten_rpow_twelve_div_400_lt]
  rw [lose_term_m17 _ ten_rpow_neg_twelve_gt ten_rpow_neg_twelve_lt]
  norm_num

lemma pyRound_thirtythree_halves : pyRound ((33 : ℝ) / 2) = 16 := by
  rw [show (33 : ℝ) / 2 = ((16 : ℤ) : ℝ) + 1 / 2 by norm_num]
  exact pyRound_even_add_half 16 ⟨8, by norm_num⟩

set_option maxHeartbeats 1000000 in
/-- Index 0 of the source calculator at ratings `[1000, 1010, 1012]`,
positions `[1, 2, 3]`, k = 32: the two pairwise contributions round to
16 and 17 before the division by `n − 1`, so the buffered change is
`16/2 + 17/2 = 16.5`, which banker-rounds down to 16. -/
lemma cex3_code :
    (calculate_group_elo_with_draws [1000, 1010, 1012] [1, 2, 3] 32).getD 0 0 = 1016 := by
  unfold calculate_group_elo_with_draws
  simp only [List.length_cons, List.length_nil, List.range_succ, List.range_zero,
    List.nil_append, List.cons_append, List.foldl_cons, List.foldl_nil,
    List.replicate_succ, List.replicate_zero]
  norm_num [List.getD, List.set, calculate_elo_win_1000_1010, calculate_elo_win_1000_1012,
    pyRound_thirtythree_halves]

set_option maxHeartbeats 1000000 in
/-- Index 0 of the round-once-after-summation computation at the same
input: the unrounded contributions sum to about `16.506`, which rounds
to 17. -/
lemma cex3_spec :
    (computeDeltasSpec [1000, 1010, 1012] [1, 2, 3] 32).getD 0 0 = 17 := by
  unfold computeDeltasSpec
  simp only [List.length_cons, List.length_nil, List.range_succ, List.range_zero,
    List.nil_append, List.cons_append, List.foldl_cons, List.foldl_nil,
    List.replicate_succ, List.replicate_zero]
  norm_num [List.getD, List.set]
  have t1 : (823 : ℝ) / 777 < (10 : ℝ) ^ ((1 : ℝ) / 40) := by
    have h := lt_ten_rpow_ten_div_400
    rw [show ((10 : ℝ) / 400) = ((1 : ℝ) / 40) by norm_num] at h
    exact h
  have t2 : (10 : ℝ) ^ ((1 : ℝ) / 40) < 33 / 31 := by
    have h := ten_rpow_ten_div_400_lt
    rw [show ((10 : ℝ) / 400) = ((1 : ℝ) / 40) by norm_num] at h
    exact h
  have u1 : (331 : ℝ) / 309 < (10 : ℝ) ^ ((3 : ℝ) / 100) := by
    have h := lt_ten_rpow_twelve_div_400
    rw [show ((12 : ℝ) / 400) = ((3 : ℝ) / 100) by norm_num] at h
    exact h
  have u2 : (10 : ℝ) ^ ((3 : ℝ) / 100) < 35 / 29 := by
    have h := ten_rpow_twelve_div_400_lt
    rw [show ((12 : ℝ) / 400) = ((3 : ℝ) / 100) by norm_num] at h
    exact h
  have h1t : (0 : ℝ) < 1 + (10 : ℝ) ^ ((1 : ℝ) / 40) := by positivity
  have h1u : (0 : ℝ) < 1 + (10 : ℝ) ^ ((3 : ℝ) / 100) := by positivity
  have e1lt : ((1 : ℝ) + (10 : ℝ) ^ ((1 : ℝ) / 40))⁻¹ < 777 / 1600 := by
    have h := inv_strictAnti₀ (show (0 : ℝ) < 1600 / 777 by norm_num)
      (show (1600 : ℝ) / 777 < 1 + (10 : ℝ) ^ ((1 : ℝ) / 40) by linarith)
    norm_num at h
    linarith
  have e1gt : (31 : ℝ) / 64 < ((1 : ℝ) + (10 : ℝ) ^ ((1 : ℝ) / 40))⁻¹ := by
    have h := inv_strictAnti₀ h1t
      (show (1 : ℝ) + (10 : ℝ) ^ ((1 : ℝ) / 40) < 64 / 31 by linarith)
    norm_num at h
    linarith
  have e2lt : ((1 : ℝ) + (10 : ℝ) ^ ((3 : ℝ) / 100))⁻¹ < 309 / 640 := by
    have h := inv_strictAnti₀ (show (0 : ℝ) < 640 / 309 by norm_num)
      (show (640 : ℝ) / 309 < 1 + (10 : ℝ) ^ ((3 : ℝ) / 100) by linarith)
    norm_num at h
    linarith
  have e2gt : (29 : ℝ) / 64 < ((1 : ℝ) + (10 : ℝ) ^ ((3 : ℝ) / 100))⁻¹ := by
    have h := inv_strictAnti₀ h1u
      (show (1 : ℝ) + (10 : ℝ) ^ ((3 : ℝ) / 100) < 64 / 29 by linarith)
    norm_num at h
    linarith
  apply pyRound_of_lt_of_lt
  · push_cast
    linarith
  · push_cast
    linarith

lemma calc_group_two_round_once_lt (a b k : ℤ) (p q : ℕ) (hpq : p < q) :
    calculate_group_elo_with_draws [a, b] [p, q] k =
      List.zipWith (· + ·) [a, b] (computeDeltasSpec [a, b] [p, q] k) := by
  unfold calculate_group_elo_with_draws computeDeltasSpec calculate_elo_win
  simp only [List.length_cons, List.length_nil, List.range_succ, List.range_zero,
    List.nil_append, List.cons_append, List.foldl_cons, List.foldl_nil,
    List.replicate_succ, List.replicate_zero]
  norm_num [hpq, hpq.ne, Nat.lt_asymm hpq, (hpq.ne).symm, List.getD, List.set,
    pyRound_intCast]

/-! ### Validation happens before any write -/

lemma length_eq_dedup_iff_nodup (l : List String) :
    l.length = l.dedup.length ↔ l.Nodup := by
  constructor
  · intro h
    have hsub : l.dedup.Sublist l := List.dedup_sublist l
    have heq : l.dedup = l := hsub.eq_of_length h.symm
    rw [← heq]
    exact l.nodup_dedup
  · intro h
    rw [List.dedup_eq_self.mpr h]

lemma create_game_short (s : Store) (channel_id : String)
    (ranked_player_ids : List (List String)) (team_id : Option String)
    (timestamp : ℤ) (h : (flattenRanked ranked_player_ids).length < 2) :
    create_game s channel_id ranked_player_ids team_id timestamp =
      (s, Except.error "A game must have at least 2 players") := by
  simp only [create_game]
  rw [if_pos h]

lemma create_game_dup (s : Store) (channel_id : String)
    (ranked_player_ids : List (List String)) (team_id : Option String)
    (timestamp : ℤ) (h2 : ¬ (flattenRanked ranked_player_ids).length < 2)
    (h : ¬ (flattenRanked ranked_player_ids).Nodup) :
    create_game s channel_id ranked_player_ids team_id timestamp =
      (s, Except.error "A player cannot be in multiple positions") := by
  simp only [create_game]
  rw [if_neg h2, if_pos]
  intro hlen
  exact h ((length_eq_dedup_iff_nodup _).mp hlen)

/-! ### Concrete evaluation of `create_game` -/

lemma create_game_storeAB :
    create_game storeAB "C" [["A"], ["B"]] none 5 =
      (⟨["A", "B"], [⟨"C", some 32, none⟩],
        [⟨"A", "C", 2016, false⟩, ⟨"B", "C", 1984, false⟩],
        [⟨1, "C", 5⟩],
        [⟨"A", 1, 1000, 2016, 1, false⟩, ⟨"B", 1, 1000, 1984, 2, false⟩],
        2⟩, Except.ok 1) := by
  simp only [create_game]
  rw [if_neg (by decide : ¬ (flattenRanked [["A"], ["B"]]).length < 2),
    if_neg (by decide : ¬ (flattenRanked [["A"], ["B"]]).length ≠ (flattenRanked [["A"], ["B"]]).dedup.length)]
  rw [show (collectChannelPlayers (create_game_inserted storeAB "C" none 5)
        (flattenRanked [["A"], ["B"]]) "C").1.map (fun p => p.rating) = [1000, 1000] from rfl]
  rw [show (collectChannelPlayers (create_game_inserted storeAB "C" none 5)
        (flattenRanked [["A"], ["B"]]) "C").1.map
        (fun p => lookupPos (buildPositions [["A"], ["B"]]) p.user_id) = [1, 2] from rfl]
  rw [show (get_channel_k_factor (collectChannelPlayers (create_game_inserted storeAB "C" none 5)
        (flattenRanked [["A"], ["B"]]) "C").2 "C").1 = 32 from rfl]
  rw [calc_group_equal_two 1 2 (by norm_num)]
  rfl

lemma create_game_storeABg :
    create_game storeABg "C" [["A"], ["B"]] none 5 =
      (⟨["A", "B"], [⟨"C", some 32, none⟩],
        [⟨"A", "C", 3032, false⟩, ⟨"B", "C", 1984, false⟩],
        [⟨1, "C", 5⟩],
        [⟨"A", 1, 1000, 3032, 1, true⟩, ⟨"B", 1, 1000, 1984, 2, false⟩],
        2⟩, Except.ok 1) := by
  simp only [create_game]
  rw [if_neg (by decide : ¬ (flattenRanked [["A"], ["B"]]).length < 2),
    if_neg (by decide : ¬ (flattenRanked [["A"], ["B"]]).length ≠ (flattenRanked [["A"], ["B"]]).dedup.length)]
  rw [show (collectChannelPlayers (create_game_inserted storeABg "C" none 5)
        (flattenRanked [["A"], ["B"]]) "C").1.map (fun p => p.rating) = [1000, 1000] from rfl]
  rw [show (collectChannelPlayers (create_game_inserted storeABg "C" none 5)
        (flattenRanked [["A"], ["B"]]) "C").1.map
        (fun p => lookupPos (buildPositions [["A"], ["B"]]) p.user_id) = [1, 2] from rfl]
  rw [show (get_channel_k_factor (collectChannelPlayers (create_game_inserted storeABg "C" none 5)
        (flattenRanked [["A"], ["B"]]) "C").2 "C").1 = 32 from rfl]
  rw [calc_group_equal_two 1 2 (by norm_num)]
  rfl

lemma create_game_storeA :
    create_game storeA "C" [["A"], ["B"]] none 5 =
      (⟨["A", "B"], [⟨"C", some 32, none⟩],
        [⟨"A", "C", 2016, false⟩, ⟨"B", "C", 1984, false⟩],
        [⟨1, "C", 5⟩],
        [⟨"A", 1, 1000, 2016, 1, false⟩, ⟨"B", 1, 1000, 1984, 2, false⟩],
        2⟩, Except.ok 1) := by
  simp only [create_game]
  rw [if_neg (by decide : ¬ (flattenRanked [["A"], ["B"]]).length < 2),
    if_neg (by decide : ¬ (flattenRanked [["A"], ["B"]]).length ≠ (flattenRanked [["A"], ["B"]]).dedup.length)]
  rw [show (collectChannelPlayers (create_game_inserted storeA "C" none 5)
        (flattenRanked [["A"], ["B"]]) "C").1.map (fun p => p.rating) = [1000, 1000] from rfl]
  rw [show (collectChannelPlayers (create_game_inserted storeA "C" none 5)
        (flattenRanked [["A"], ["B"]]) "C").1.map
        (fun p => lookupPos (buildPositions [["A"], ["B"]]) p.user_id) = [1, 2] from rfl]
  rw [show (get_channel_k_factor (collectChannelPlayers (create_game_inserted storeA "C" none 5)
        (flattenRanked [["A"], ["B"]]) "C").2 "C").1 = 32 from rfl]
  rw [calc_group_equal_two 1 2 (by norm_num)]
  rfl

/-! ### Frame and characterisation lemmas for the store primitives -/

lemma keyMatch_iff (u ch : String) (cp : ChannelPlayer) :
    keyMatch u ch cp = true ↔ cp.user_id = u ∧ cp.channel_id = ch := by
  unfold keyMatch
  rw [Bool.and_eq_true, beq_iff_eq, beq_iff_eq]

lemma get_or_create_player_frame (s : Store) (u : String) :
    (get_or_create_player s u).channels = s.channels ∧
    (get_or_create_player s u).channel_players = s.channel_players ∧
    (get_or_create_player s u).games = s.games ∧
    (get_or_create_player s u).player_games = s.player_games ∧
    (get_or_create_player s u).next_game_id = s.next_game_id := by
  unfold get_or_create_player
  split <;> simp

lemma get_or_create_player_of_mem (s : Store) (u : String) (h : u ∈ s.players) :
    get_or_create_player s u = s := by
  unfold get_or_create_player
  rw [if_pos h]

lemma get_or_create_player_mem_self (s : Store) (u : String) :
    u ∈ (get_or_create_player s u).players := by
  unfold get_or_create_player
  split
  · assumption
  · simp

lemma get_or_create_player_mem_mono (s : Store) (u v : String) (h : v ∈ s.players) :
    v ∈ (get_or_create_player s u).players := by
  unfold get_or_create_player
  split
  · exact h
  · simp [h]

lemma get_or_create_channel_frame (s : Store) (ch : String) (team : Option String) :
    (get_or_create_channel s ch team).2.players = s.players ∧
    (get_or_create_channel s ch team).2.channel_players = s.channel_players ∧
    (get_or_create_channel s ch team).2.games = s.games ∧
    (get_or_create_channel s ch team).2.player_games = s.player_games ∧
    (get_or_create_channel s ch team).2.next_game_id = s.next_game_id := by
  unfold get_or_create_channel
  split
  · simp
  · split <;> simp

lemma get_or_create_channel_none_present (s : Store) (ch : String)
    (h : (s.channels.find? (chanMatch ch)).isSome) :
    (get_or_create_channel s ch none).2 = s := by
  unfold get_or_create_channel
  split
  · next heq => rw [heq] at h; simp at h
  · next c heq => simp [teamTruthy]

lemma get_or_create_channel_present_after (s : Store) (ch : String)
    (team : Option String) :
    (((get_or_create_channel s ch team).2.channels.find? (chanMatch ch)).isSome) := by
  unfold get_or_create_channel
  split
  · next heq =>
    simp only [List.find?_isSome]
    refine ⟨⟨ch, some 32, team⟩, by simp, ?_⟩
    simp [chanMatch]
  · next c heq =>
    split
    · simp only [List.find?_isSome]
      have hc := List.find?_some heq
      have hmem := List.mem_of_find?_eq_some heq
      refine ⟨if chanMatch ch c && c.team_id == none then { c with team_id := team } else c,
        List.mem_map_of_mem _ hmem, ?_⟩
      split <;> simpa [chanMatch] using hc
    · simp only [List.find?_isSome]
      exact ⟨c, List.mem_of_find?_eq_some heq, List.find?_some heq⟩

lemma gocp_channel_players_eq (s : Store) (u ch : String) :
    ((get_or_create_channel (get_or_create_player s u) ch none).2).channel_players
      = s.channel_players := by
  rw [(get_or_create_channel_frame _ _ _).2.1, (get_or_create_player_frame s u).2.1]

lemma gocp_found (s : Store) (u ch : String) (cp : ChannelPlayer)
    (h : s.channel_players.find? (keyMatch u ch) = some cp) :
    get_or_create_channel_player s u ch =
      (cp, (get_or_create_channel (get_or_create_player s u) ch none).2) := by
  simp only [get_or_create_channel_player]
  rw [gocp_channel_players_eq, h]

lemma gocp_not_found (s : Store) (u ch : String)
    (h : s.channel_players.find? (keyMatch u ch) = none) :
    get_or_create_channel_player s u ch =
      (⟨u, ch, 1000, false⟩,
       { (get_or_create_channel (get_or_create_player s u) ch none).2 with
           channel_players := s.channel_players ++ [⟨u, ch, 1000, false⟩] }) := by
  simp only [get_or_create_channel_player]
  rw [gocp_channel_players_eq, h]

lemma gocp_row_user (s : Store) (u ch : String) :
    (get_or_create_channel_player s u ch).1.user_id = u ∧
    (get_or_create_channel_player s u ch).1.channel_id = ch := by
  cases hfind : s.channel_players.find? (keyMatch u ch) with
  | some cp =>
    rw [gocp_found s u ch cp hfind]
    have h := (keyMatch_iff u ch cp).mp (List.find?_some hfind)
    exact ⟨h.1, h.2⟩
  | none =>
    rw [gocp_not_found s u ch hfind]
    exact ⟨rfl, rfl⟩

lemma gocp_frame (s : Store) (u ch : String) :
    (get_or_create_channel_player s u ch).2.games = s.games ∧
    (get_or_create_channel_player s u ch).2.player_games = s.player_games ∧
    (get_or_create_channel_player s u ch).2.next_game_id = s.next_game_id := by
  have hchan := get_or_create_channel_frame (get_or_create_player s u) ch none
  have hpl := get_or_create_player_frame s u
  cases hfind : s.channel_players.find? (keyMatch u ch) with
  | some cp =>
    rw [gocp_found s u ch cp hfind]
    exact ⟨hchan.2.2.1.trans hpl.2.2.1, (hchan.2.2.2.1).trans hpl.2.2.2.1,
      (hchan.2.2.2.2).trans hpl.2.2.2.2⟩
  | none =>
    rw [gocp_not_found s u ch hfind]
    exact ⟨hchan.2.2.1.trans hpl.2.2.1, (hchan.2.2.2.1).trans hpl.2.2.2.1,
      (hchan.2.2.2.2).trans hpl.2.2.2.2⟩

lemma gocp_channel_players_cases (s : Store) (u ch : String) :
    (get_or_create_channel_player s u ch).2.channel_players = s.channel_players ∨
    ((s.channel_players.find? (keyMatch u ch) = none) ∧
     (get_or_create_channel_player s u ch).2.channel_players =
       s.channel_players ++ [⟨u, ch, 1000, false⟩]) := by
  cases hfind : s.channel_players.find? (keyMatch u ch) with
  | some cp =>
    left
    rw [gocp_found s u ch cp hfind]
    exact gocp_channel_players_eq s u ch
  | none =>
    right
    rw [gocp_not_found s u ch hfind]
    exact ⟨rfl, rfl⟩

lemma gocp_players_of_mem (s : Store) (u ch : String) (h : u ∈ s.players) :
    (get_or_create_channel_player s u ch).2.players = s.players := by
  cases hfind : s.channel_players.find? (keyMatch u ch) with
  | some cp =>
    rw [gocp_found s u ch cp hfind]
    show (get_or_create_channel (get_or_create_player s u) ch none).2.players = s.players
    rw [get_or_create_player_of_mem s u h]
    exact (get_or_create_channel_frame s ch none).1
  | none =>
    rw [gocp_not_found s u ch hfind]
    show (get_or_create_channel (get_or_create_player s u) ch none).2.players = s.players
    rw [get_or_create_player_of_mem s u h]
    exact (get_or_create_channel_frame s ch none).1

lemma gocp_mem_players_self (s : Store) (u ch : String) :
    u ∈ (get_or_create_channel_player s u ch).2.players := by
  have hchan := (get_or_create_channel_frame (get_or_create_player s u) ch none).1
  have hself := get_or_create_player_mem_self s u
  cases hfind : s.channel_players.find? (keyMatch u ch) with
  | some cp => rw [gocp_found s u ch cp hfind, hchan]; exact hself
  | none => rw [gocp_not_found s u ch hfind]; show u ∈ _; rw [hchan]; exact hself

lemma gocp_mem_players_mono (s : Store) (u ch v : String) (h : v ∈ s.players) :
    v ∈ (get_or_create_channel_player s u ch).2.players := by
  have hchan := (get_or_create_channel_frame (get_or_create_player s u) ch none).1
  have hmono := get_or_create_player_mem_mono s u v h
  cases hfind : s.channel_players.find? (keyMatch u ch) with
  | some cp => rw [gocp_found s u ch cp hfind, hchan]; exact hmono
  | none => rw [gocp_not_found s u ch hfind]; show v ∈ _; rw [hchan]; exact hmono

lemma gocp_channel_present_after (s : Store) (u ch : String) :
    (((get_or_create_channel_player s u ch).2.channels.find? (chanMatch ch)).isSome) := by
  have hpres := get_or_create_channel_present_after (get_or_create_player s u) ch none
  cases hfind : s.channel_players.find? (keyMatch u ch) with
  | some cp => rw [gocp_found s u ch cp hfind]; exact hpres
  | none => rw [gocp_not_found s u ch hfind]; exact hpres

lemma gocp_noop (s : Store) (u ch : String) (cp : ChannelPlayer)
    (hu : u ∈ s.players) (hch : (s.channels.find? (chanMatch ch)).isSome)
    (hfind : s.channel_players.find? (keyMatch u ch) = some cp) :
    get_or_create_channel_player s u ch = (cp, s) := by
  rw [gocp_found s u ch cp hfind, get_or_create_player_of_mem s u hu,
    get_or_create_channel_none_present s ch hch]

lemma gocp_keys (s : Store) (u ch : String) (h : keysUnique s) :
    keysUnique (get_or_create_channel_player s u ch).2 := by
  rcases gocp_channel_players_cases s u ch with heq | ⟨hnone, heq⟩
  · unfold keysUnique
    rw [heq]
    exact h
  · unfold keysUnique
    rw [heq, List.map_append]
    rw [List.nodup_append]
    refine ⟨h, by simp, ?_⟩
    intro k hk hk2
    simp only [List.map_cons, List.map_nil, List.mem_cons, List.not_mem_nil, or_false] at hk2
    rw [List.mem_map] at hk
    obtain ⟨cp, hcp, hkey⟩ := hk
    have hnm := List.find?_eq_none.mp hnone cp hcp
    apply hnm
    rw [keyMatch_iff]
    subst hk2
    have h1 : cp.user_id = u := congrArg Prod.fst hkey
    have h2 : cp.channel_id = ch := congrArg (fun p => p.2) hkey
    exact ⟨h1, h2⟩

/-! ### The participant-collection loop -/

lemma find?_append_of_some {α : Type} (l1 l2 : List α) (p : α → Bool) (a : α)
    (h : l1.find? p = some a) : (l1 ++ l2).find? p = some a := by
  induction l1 with
  | nil => simp at h
  | cons x xs ih =>
    rw [List.cons_append]
    by_cases hx : p x
    · rw [List.find?_cons_of_pos _ hx] at h ⊢
      exact h
    · rw [List.find?_cons_of_neg _ hx] at h ⊢
      exact ih h

lemma find?_eq_of_mem_unique (l : List ChannelPlayer)
    (hkeys : (l.map (fun cp => (cp.user_id, cp.channel_id))).Nodup)
    (cp : ChannelPlayer) (hmem : cp ∈ l) (u ch : String)
    (hkey : keyMatch u ch cp = true) : l.find? (keyMatch u ch) = some cp := by
  induction l with
  | nil => simp at hmem
  | cons x xs ih =>
    rw [List.map_cons, List.nodup_cons] at hkeys
    rcases List.mem_cons.mp hmem with heq | hmem'
    · subst heq
      exact List.find?_cons_of_pos _ hkey
    · by_cases hx : keyMatch u ch x
      · exfalso
        have h1 := (keyMatch_iff u ch x).mp hx
        have h2 := (keyMatch_iff u ch cp).mp hkey
        apply hkeys.1
        rw [List.mem_map]
        exact ⟨cp, hmem', by rw [h1.1, h1.2, h2.1, h2.2]⟩
      · rw [List.find?_cons_of_neg _ hx]
        exact ih hkeys.2 hmem'


lemma collect_spec (ch : String) :
    ∀ (uids : List String) (s : Store), uids.Nodup → keysUnique s →
    ∃ created : List ChannelPlayer,
      ((collectChannelPlayers s uids ch).2.channel_players
          = s.channel_players ++ created) ∧
      keysUnique (collectChannelPlayers s uids ch).2 ∧
      ((collectChannelPlayers s uids ch).1.map (fun r => r.user_id) = uids) ∧
      (∀ r ∈ (collectChannelPlayers s uids ch).1, r.channel_id = ch) ∧
      (∀ r ∈ (collectChannelPlayers s uids ch).1,
        r ∈ (collectChannelPlayers s uids ch).2.channel_players) ∧
      (∀ r ∈ (collectChannelPlayers s uids ch).1, ∀ cp,
        s.channel_players.find? (keyMatch r.user_id ch) = some cp → r = cp) ∧
      (∀ cp ∈ created, cp.rating = 1000 ∧ cp.gambling = false) ∧
      ((∀ u ∈ uids, (s.channel_players.find? (keyMatch u ch)).isSome) → created = []) ∧
      ((collectChannelPlayers s uids ch).2.games = s.games) ∧
      ((collectChannelPlayers s uids ch).2.player_games = s.player_games) ∧
      ((collectChannelPlayers s uids ch).2.next_game_id = s.next_game_id) ∧
      ((∀ u ∈ uids, u ∈ s.players) → (collectChannelPlayers s uids ch).2.players = s.players) ∧
      (∀ v, v ∈ s.players → v ∈ (collectChannelPlayers s uids ch).2.players) ∧
      (∀ u ∈ uids, u ∈ (collectChannelPlayers s uids ch).2.players) ∧
      (((s.channels.find? (chanMatch ch)).isSome ∨ uids ≠ []) →
        ((collectChannelPlayers s uids ch).2.channels.find? (chanMatch ch)).isSome) := by
  intro uids
  induction uids with
  | nil =>
    intro s hnd hkeys
    refine ⟨[], by simp [collectChannelPlayers], by simpa [collectChannelPlayers] using hkeys,
      by simp [collectChannelPlayers], by simp [collectChannelPlayers],
      by simp [collectChannelPlayers], by simp [collectChannelPlayers],
      by simp, fun _ => rfl, by simp [collectChannelPlayers],
      by simp [collectChannelPlayers], by simp [collectChannelPlayers],
      fun _ => by simp [collectChannelPlayers],
      fun v hv => by simpa [collectChannelPlayers] using hv,
      by simp [collectChannelPlayers], ?_⟩
    intro h
    rcases h with h | h
    · simpa [collectChannelPlayers] using h
    · exact absurd rfl h
  | cons u us ih =>
    intro s hnd hkeys
    rw [List.nodup_cons] at hnd
    have hrec : collectChannelPlayers s (u :: us) ch =
        ((get_or_create_channel_player s u ch).1 ::
          (collectChannelPlayers (get_or_create_channel_player s u ch).2 us ch).1,
         (collectChannelPlayers (get_or_create_channel_player s u ch).2 us ch).2) := rfl
    have hkeys1 : keysUnique (get_or_create_channel_player s u ch).2 :=
      gocp_keys s u ch hkeys
    obtain ⟨created', i1, i2, i3, i4, i5, i6, i7, i8, i9, i10, i11, i12, i13, i14, i15⟩ :=
      ih (get_or_create_channel_player s u ch).2 hnd.2 hkeys1
    have hrowu := gocp_row_user s u ch
    have hframe := gocp_frame s u ch
    have hmemself := gocp_mem_players_self s u ch
    rcases gocp_channel_players_cases s u ch with hcp | ⟨hnone, hcp⟩
    · -- the membership row of u already existed
      refine ⟨created', ?_, ?_, ?_, ?_, ?_, ?_, ?_, ?_, ?_, ?_, ?_, ?_, ?_, ?_, ?_⟩
      · rw [hrec, i1, hcp]
      · rw [hrec]
        exact i2
      · rw [hrec, List.map_cons, i3, hrowu.1]
      · rw [hrec]
        intro r hr
        rcases List.mem_cons.mp hr with heq | hmem'
        · subst heq
          exact hrowu.2
        · exact i4 r hmem'
      · rw [hrec]
        intro r hr
        rcases List.mem_cons.mp hr with heq | hmem'
        · subst heq
          rw [i1, hcp]
          cases hfind : s.channel_players.find? (keyMatch u ch) with
          | some cp =>
            have h1 : (get_or_create_channel_player s u ch).1 = cp := by
              rw [gocp_found s u ch cp hfind]
            rw [h1]
            exact List.mem_append_left _ (List.mem_of_find?_eq_some hfind)
          | none =>
            exfalso
            have h2 : (get_or_create_channel_player s u ch).2.channel_players =
                s.channel_players ++ [⟨u, ch, 1000, false⟩] := by
              rw [gocp_not_found s u ch hfind]
            rw [hcp] at h2
            simp at h2
        · exact i5 r hmem'
      · rw [hrec]
        intro r hr cp hfind
        rcases List.mem_cons.mp hr with heq | hmem'
        · subst heq
          rw [hrowu.1] at hfind
          have h1 : (get_or_create_channel_player s u ch).1 = cp := by
            rw [gocp_found s u ch cp hfind]
          exact h1
        · refine i6 r hmem' cp ?_
          rw [hcp]
          exact hfind
      · exact i7
      · intro hall
        apply i8
        intro v hv
        rw [hcp]
        exact hall v (List.mem_cons_of_mem u hv)
      · rw [hrec, i9, hframe.1]
      · rw [hrec, i10, hframe.2.1]
      · rw [hrec, i11, hframe.2.2]
      · intro hall
        rw [hrec]
        have h1 : ∀ v ∈ us, v ∈ (get_or_create_channel_player s u ch).2.players :=
          fun v hv => gocp_mem_players_mono s u ch v (hall v (List.mem_cons_of_mem u hv))
        rw [i12 h1]
        exact gocp_players_of_mem s u ch (hall u (List.mem_cons_self u us))
      · intro v hv
        rw [hrec]
        exact i13 v (gocp_mem_players_mono s u ch v hv)
      · intro v hv
        rw [hrec]
        rcases List.mem_cons.mp hv with heq | hmem'
        · subst heq
          exact i13 v hmemself
        · exact i14 v hmem'
      · intro _
        rw [hrec]
        apply i15
        left
        exact gocp_channel_present_after s u ch
    · -- the membership row of u was created at the defaults
      refine ⟨⟨u, ch, 1000, false⟩ :: created', ?_, ?_, ?_, ?_, ?_, ?_, ?_, ?_, ?_, ?_, ?_,
          ?_, ?_, ?_, ?_⟩
      · rw [hrec, i1, hcp, List.append_assoc]
        rfl
      · rw [hrec]
        exact i2
      · rw [hrec, List.map_cons, i3, hrowu.1]
      · rw [hrec]
        intro r hr
        rcases List.mem_cons.mp hr with heq | hmem'
        · subst heq
          exact hrowu.2
        · exact i4 r hmem'
      · rw [hrec]
        intro r hr
        rcases List.mem_cons.mp hr with heq | hmem'
        · subst heq
          have h1 : (get_or_create_channel_player s u ch).1 = ⟨u, ch, 1000, false⟩ := by
            rw [gocp_not_found s u ch hnone]
          rw [h1, i1, hcp]
          exact List.mem_append_left _ (List.mem_append_right _ (List.mem_singleton.mpr rfl))
        · exact i5 r hmem'
      · rw [hrec]
        intro r hr cp hfind
        rcases List.mem_cons.mp hr with heq | hmem'
        · subst heq
          rw [hrowu.1, hnone] at hfind
          exact Option.noConfusion hfind
        · refine i6 r hmem' cp ?_
          rw [hcp]
          exact find?_append_of_some _ _ _ _ hfind
      · intro cp hcp'
        rcases List.mem_cons.mp hcp' with heq | hmem'
        · subst heq
          exact ⟨rfl, rfl⟩
        · exact i7 cp hmem'
      · intro hall
        exfalso
        have h1 := hall u (List.mem_cons_self u us)
        rw [hnone] at h1
        simp at h1
      · rw [hrec, i9, hframe.1]
      · rw [hrec, i10, hframe.2.1]
      · rw [hrec, i11, hframe.2.2]
      · intro hall
        rw [hrec]
        have h1 : ∀ v ∈ us, v ∈ (get_or_create_channel_player s u ch).2.players :=
          fun v hv => gocp_mem_players_mono s u ch v (hall v (List.mem_cons_of_mem u hv))
        rw [i12 h1]
        exact gocp_players_of_mem s u ch (hall u (List.mem_cons_self u us))
      · intro v hv
        rw [hrec]
        exact i13 v (gocp_mem_players_mono s u ch v hv)
      · intro v hv
        rw [hrec]
        rcases List.mem_cons.mp hv with heq | hmem'
        · subst heq
          exact i13 v hmemself
        · exact i14 v hmem'
      · intro _
        rw [hrec]
        apply i15
        left
        exact gocp_channel_present_after s u ch

/-! ### The update loops of `create_game` and `undo_last_game` -/

lemma applyGameUpdates_spec (gid : ℕ) (ch : String) (pos : List (String × ℕ)) :
    ∀ (pcs : List (ChannelPlayer × ℤ)) (s : Store),
      (applyGameUpdates s gid ch pos pcs).players = s.players ∧
      (applyGameUpdates s gid ch pos pcs).channels = s.channels ∧
      (applyGameUpdates s gid ch pos pcs).games = s.games ∧
      (applyGameUpdates s gid ch pos pcs).next_game_id = s.next_game_id ∧
      (applyGameUpdates s gid ch pos pcs).player_games =
        s.player_games ++ pcs.map (gameRow gid pos) ∧
      (applyGameUpdates s gid ch pos pcs).channel_players =
        s.channel_players.map (applyFold ch pcs) := by
  intro pcs
  induction pcs with
  | nil =>
    intro s
    refine ⟨rfl, rfl, rfl, rfl, by simp [applyGameUpdates], ?_⟩
    show s.channel_players = s.channel_players.map (applyFold ch [])
    have h : applyFold ch [] = fun cp => cp := rfl
    rw [h, List.map_id']
  | cons pc rest ih =>
    intro s
    have hrec : applyGameUpdates s gid ch pos (pc :: rest) =
        applyGameUpdates
          { s with
              player_games := s.player_games ++ [gameRow gid pos pc],
              channel_players := s.channel_players.map (applyUpd ch pc) }
          gid ch pos rest := rfl
    obtain ⟨p1, p2, p3, p4, p5, p6⟩ := ih
      { s with
          player_games := s.player_games ++ [gameRow gid pos pc],
          channel_players := s.channel_players.map (applyUpd ch pc) }
    refine ⟨?_, ?_, ?_, ?_, ?_, ?_⟩
    · rw [hrec, p1]
    · rw [hrec, p2]
    · rw [hrec, p3]
    · rw [hrec, p4]
    · rw [hrec, p5, List.map_cons]
      simp [List.append_assoc]
    · rw [hrec, p6, List.map_map]
      rfl

lemma undoRatings_spec (ch : String) :
    ∀ (pgs : List PlayerGame) (s : Store),
      (undoRatings s ch pgs).players = s.players ∧
      (undoRatings s ch pgs).channels = s.channels ∧
      (undoRatings s ch pgs).games = s.games ∧
      (undoRatings s ch pgs).player_games = s.player_games ∧
      (undoRatings s ch pgs).next_game_id = s.next_game_id ∧
      (undoRatings s ch pgs).channel_players = s.channel_players.map (undoFold ch pgs) := by
  intro pgs
  induction pgs with
  | nil =>
    intro s
    refine ⟨rfl, rfl, rfl, rfl, rfl, ?_⟩
    show s.channel_players = s.channel_players.map (undoFold ch [])
    have h : undoFold ch [] = fun cp => cp := rfl
    rw [h, List.map_id']
  | cons pg rest ih =>
    intro s
    have hrec : undoRatings s ch (pg :: rest) =
        undoRatings { s with channel_players := s.channel_players.map (undoUpd ch pg) }
          ch rest := rfl
    obtain ⟨p1, p2, p3, p4, p5, p6⟩ := ih
      { s with channel_players := s.channel_players.map (undoUpd ch pg) }
    refine ⟨?_, ?_, ?_, ?_, ?_, ?_⟩
    · rw [hrec, p1]
    · rw [hrec, p2]
    · rw [hrec, p3]
    · rw [hrec, p4]
    · rw [hrec, p5]
    · rw [hrec, p6, List.map_map]
      rfl

lemma undo_last_game_some (s : Store) (ch : String) (g : Game)
    (h : lastGame s ch = some g) :
    (undo_last_game s ch).2 = Except.ok g.timestamp ∧
    (undo_last_game s ch).1.players = s.players ∧
    (undo_last_game s ch).1.channels = s.channels ∧
    (undo_last_game s ch).1.channel_players = s.channel_players.map
      (undoFold ch (s.player_games.filter (fun pg => pg.game_id == g.id))) ∧
    (undo_last_game s ch).1.games = s.games.filter (fun gg => gg.id != g.id) ∧
    (undo_last_game s ch).1.player_games =
      s.player_games.filter (fun pg => pg.game_id != g.id) ∧
    (undo_last_game s ch).1.next_game_id = s.next_game_id := by
  obtain ⟨u1, u2, u3, u4, u5, u6⟩ :=
    undoRatings_spec ch (s.player_games.filter (fun pg => pg.game_id == g.id)) s
  unfold undo_last_game
  rw [h]
  refine ⟨rfl, u1, u2, u6, ?_, ?_, u5⟩
  · show (undoRatings s ch (s.player_games.filter (fun pg => pg.game_id == g.id))).games.filter
        (fun gg => gg.id != g.id) = s.games.filter (fun gg => gg.id != g.id)
    rw [u3]
  · show (undoRatings s ch (s.player_games.filter (fun pg => pg.game_id == g.id))).player_games.filter
        (fun pg => pg.game_id != g.id) = s.player_games.filter (fun pg => pg.game_id != g.id)
    rw [u4]

lemma chooser_fold_max :
    ∀ (l : List Game) (acc : Option Game) (g : Game),
      (acc = some g ∨ (g ∈ l ∧ ∀ x, acc = some x → x.timestamp < g.timestamp)) →
      (∀ h ∈ l, h ≠ g → h.timestamp < g.timestamp) →
      l.foldl (fun acc g => match acc with
        | none => some g
        | some h => if h.timestamp < g.timestamp then some g else some h) acc = some g := by
  intro l
  induction l with
  | nil =>
    intro acc g hacc _
    rcases hacc with h | ⟨hmem, _⟩
    · exact h
    · simp at hmem
  | cons x xs ih =>
    intro acc g hacc hmax
    rw [List.foldl_cons]
    apply ih
    · rcases hacc with h | ⟨hmem, hbound⟩
      · subst h
        by_cases hx : x = g
        · subst hx
          left
          show (if x.timestamp < x.timestamp then some x else some x) = some x
          split <;> rfl
        · left
          have hlt := hmax x (List.mem_cons_self x xs) hx
          show (if g.timestamp < x.timestamp then some x else some g) = some g
          rw [if_neg (not_lt.mpr (le_of_lt hlt))]
      · by_cases hx : x = g
        · subst hx
          left
          cases acc with
          | none => rfl
          | some h =>
            have hlt := hbound h rfl
            show (if h.timestamp < x.timestamp then some x else some h) = some x
            rw [if_pos hlt]
        · have hmem' : g ∈ xs := by
            rcases List.mem_cons.mp hmem with heq | hm
            · exact absurd heq.symm hx
            · exact hm
          right
          refine ⟨hmem', ?_⟩
          intro y hy
          have hxlt : x.timestamp < g.timestamp := hmax x (List.mem_cons_self x xs) hx
          cases acc with
          | none =>
            have hy' : some x = some y := hy
            rw [← Option.some.inj hy']
            exact hxlt
          | some h =>
            by_cases hlt : h.timestamp < x.timestamp
            · have hy' : (if h.timestamp < x.timestamp then some x else some h) = some y := hy
              rw [if_pos hlt] at hy'
              rw [← Option.some.inj hy']
              exact hxlt
            · have hy' : (if h.timestamp < x.timestamp then some x else some h) = some y := hy
              rw [if_neg hlt] at hy'
              rw [← Option.some.inj hy']
              exact hbound h rfl
    · intro h hmem hne
      exact hmax h (List.mem_cons_of_mem x hmem) hne

lemma lastGame_of_strict_max (s : Store) (ch : String) (g : Game)
    (hmem : g ∈ s.games) (hch : g.channel_id = ch)
    (hmax : ∀ h ∈ s.games, h.channel_id = ch → h ≠ g → h.timestamp < g.timestamp) :
    lastGame s ch = some g := by
  unfold lastGame
  apply chooser_fold_max
  · right
    refine ⟨?_, ?_⟩
    · rw [List.mem_filter]
      exact ⟨hmem, by rw [hch]; exact beq_self_eq_true ch⟩
    · intro x hx
      exact Option.noConfusion hx
  · intro h hmemf hne
    rw [List.mem_filter] at hmemf
    refine hmax h hmemf.1 ?_ hne
    have h2 := hmemf.2
    rwa [beq_iff_eq] at h2

/-! ### Composing a contest's membership updates with its undo -/

lemma applyUpd_keys (ch : String) (pc : ChannelPlayer × ℤ) (cp : ChannelPlayer) :
    (applyUpd ch pc cp).user_id = cp.user_id ∧
    (applyUpd ch pc cp).channel_id = cp.channel_id := by
  unfold applyUpd
  split <;> exact ⟨rfl, rfl⟩

lemma undoUpd_keys (ch : String) (pg : PlayerGame) (cp : ChannelPlayer) :
    (undoUpd ch pg cp).user_id = cp.user_id ∧
    (undoUpd ch pg cp).channel_id = cp.channel_id := by
  unfold undoUpd
  split <;> exact ⟨rfl, rfl⟩

lemma applyFold_keys (ch : String) :
    ∀ (pcs : List (ChannelPlayer × ℤ)) (cp : ChannelPlayer),
      (applyFold ch pcs cp).user_id = cp.user_id ∧
      (applyFold ch pcs cp).channel_id = cp.channel_id := by
  intro pcs
  induction pcs with
  | nil => intro cp; exact ⟨rfl, rfl⟩
  | cons pc rest ih =>
    intro cp
    have hrec : applyFold ch (pc :: rest) cp = applyFold ch rest (applyUpd ch pc cp) := rfl
    rw [hrec]
    obtain ⟨h1, h2⟩ := ih (applyUpd ch pc cp)
    obtain ⟨k1, k2⟩ := applyUpd_keys ch pc cp
    exact ⟨h1.trans k1, h2.trans k2⟩

lemma undoFold_keys (ch : String) :
    ∀ (pgs : List PlayerGame) (cp : ChannelPlayer),
      (undoFold ch pgs cp).user_id = cp.user_id ∧
      (undoFold ch pgs cp).channel_id = cp.channel_id := by
  intro pgs
  induction pgs with
  | nil => intro cp; exact ⟨rfl, rfl⟩
  | cons pg rest ih =>
    intro cp
    have hrec : undoFold ch (pg :: rest) cp = undoFold ch rest (undoUpd ch pg cp) := rfl
    rw [hrec]
    obtain ⟨h1, h2⟩ := ih (undoUpd ch pg cp)
    obtain ⟨k1, k2⟩ := undoUpd_keys ch pg cp
    exact ⟨h1.trans k1, h2.trans k2⟩

lemma keyMatch_congr (u ch : String) (cp cp' : ChannelPlayer)
    (h1 : cp'.user_id = cp.user_id) (h2 : cp'.channel_id = cp.channel_id) :
    keyMatch u ch cp' = keyMatch u ch cp := by
  unfold keyMatch
  rw [h1, h2]

lemma applyFold_nomatch (ch : String) :
    ∀ (pcs : List (ChannelPlayer × ℤ)) (cp : ChannelPlayer),
      (∀ pc ∈ pcs, keyMatch pc.1.user_id ch cp = false) →
      applyFold ch pcs cp = cp := by
  intro pcs
  induction pcs with
  | nil => intro cp _; rfl
  | cons pc rest ih =>
    intro cp hno
    have hrec : applyFold ch (pc :: rest) cp = applyFold ch rest (applyUpd ch pc cp) := rfl
    rw [hrec]
    have h1 : applyUpd ch pc cp = cp := by
      unfold applyUpd
      rw [hno pc (List.mem_cons_self pc rest)]
      simp
    rw [h1]
    exact ih cp (fun pc' h => hno pc' (List.mem_cons_of_mem pc h))

lemma undoFold_nomatch (ch : String) :
    ∀ (pgs : List PlayerGame) (cp : ChannelPlayer),
      (∀ pg ∈ pgs, keyMatch pg.user_id ch cp = false) →
      undoFold ch pgs cp = cp := by
  intro pgs
  induction pgs with
  | nil => intro cp _; rfl
  | cons pg rest ih =>
    intro cp hno
    have hrec : undoFold ch (pg :: rest) cp = undoFold ch rest (undoUpd ch pg cp) := rfl
    rw [hrec]
    have h1 : undoUpd ch pg cp = cp := by
      unfold undoUpd
      rw [hno pg (List.mem_cons_self pg rest)]
      simp
    rw [h1]
    exact ih cp (fun pg' h => hno pg' (List.mem_cons_of_mem pg h))

lemma beq_string_false (a b : String) (h : a ≠ b) : (a == b) = false :=
  beq_eq_false_iff_ne.mpr h

lemma create_undo_rating (ch : String) :
    ∀ (pcs : List (ChannelPlayer × ℤ)) (gid : ℕ) (pos : List (String × ℕ))
      (cp : ChannelPlayer),
      (pcs.map (fun pc => pc.1.user_id)).Nodup →
      (∀ pc ∈ pcs, keyMatch pc.1.user_id ch cp = true → pc.1.rating = cp.rating) →
      (undoFold ch (pcs.map (gameRow gid pos)) (applyFold ch pcs cp)).rating = cp.rating := by
  intro pcs
  induction pcs with
  | nil =>
    intro gid pos cp _ _
    rfl
  | cons pc rest ih =>
    intro gid pos cp hnd hmatch
    rw [List.map_cons] at hnd
    rw [List.nodup_cons] at hnd
    by_cases hkm : keyMatch pc.1.user_id ch cp = true
    · -- pc is the participant owning this row
      have hkeys := (keyMatch_iff _ _ _).mp hkm
      have hcp' : applyFold ch (pc :: rest) cp =
          applyFold ch rest (applyUpd ch pc cp) := rfl
      have happ : applyUpd ch pc cp =
          { cp with rating := pc.1.rating + pc.2 * (if pc.1.gambling then 2 else 1),
                    gambling := if pc.1.gambling then false else cp.gambling } := by
        unfold applyUpd
        rw [if_pos hkm]
      have hnorest : ∀ pc' ∈ rest, keyMatch pc'.1.user_id ch (applyUpd ch pc cp) = false := by
        intro pc' hpc'
        have hne : (applyUpd ch pc cp).user_id ≠ pc'.1.user_id := by
          rw [(applyUpd_keys ch pc cp).1, hkeys.1]
          intro heq
          exact hnd.1 (heq ▸ List.mem_map_of_mem (fun pc => pc.1.user_id) hpc')
        unfold keyMatch
        rw [beq_string_false _ _ hne, Bool.false_and]
      have hfold : applyFold ch (pc :: rest) cp = applyUpd ch pc cp := by
        rw [hcp']
        exact applyFold_nomatch ch rest _ hnorest
      rw [hfold]
      have hrowrec : (pc :: rest).map (gameRow gid pos) =
          gameRow gid pos pc :: rest.map (gameRow gid pos) := rfl
      rw [hrowrec]
      have hstep : undoFold ch (gameRow gid pos pc :: rest.map (gameRow gid pos))
          (applyUpd ch pc cp) =
          undoFold ch (rest.map (gameRow gid pos))
            (undoUpd ch (gameRow gid pos pc) (applyUpd ch pc cp)) := rfl
      rw [hstep]
      have hkm2 : keyMatch (gameRow gid pos pc).user_id ch (applyUpd ch pc cp) = true := by
        show keyMatch pc.1.user_id ch (applyUpd ch pc cp) = true
        rw [keyMatch_congr pc.1.user_id ch cp (applyUpd ch pc cp)
          (applyUpd_keys ch pc cp).1 (applyUpd_keys ch pc cp).2]
        exact hkm
      have hundo : undoUpd ch (gameRow gid pos pc) (applyUpd ch pc cp) =
          { applyUpd ch pc cp with rating := pc.1.rating } := by
        unfold undoUpd
        rw [hkm2]
        simp [gameRow]
      rw [hundo]
      have hnorest2 : ∀ pg ∈ rest.map (gameRow gid pos),
          keyMatch pg.user_id ch ({ applyUpd ch pc cp with rating := pc.1.rating }) = false := by
        intro pg hpg
        rw [List.mem_map] at hpg
        obtain ⟨pc', hpc', hrow⟩ := hpg
        have huser : pg.user_id = pc'.1.user_id := by rw [← hrow]; rfl
        have hne : ({ applyUpd ch pc cp with rating := pc.1.rating } : ChannelPlayer).user_id
            ≠ pg.user_id := by
          show (applyUpd ch pc cp).user_id ≠ pg.user_id
          rw [(applyUpd_keys ch pc cp).1, hkeys.1, huser]
          intro heq
          exact hnd.1 (heq ▸ List.mem_map_of_mem (fun pc => pc.1.user_id) hpc')
        unfold keyMatch
        rw [beq_string_false _ _ hne, Bool.false_and]
      rw [undoFold_nomatch ch _ _ hnorest2]
      show pc.1.rating = cp.rating
      exact hmatch pc (List.mem_cons_self pc rest) hkm
    · -- this row belongs to no participant yet processed here
      have hkm' : keyMatch pc.1.user_id ch cp = false := by
        cases h : keyMatch pc.1.user_id ch cp
        · rfl
        · exact absurd h hkm
      have hcp' : applyFold ch (pc :: rest) cp =
          applyFold ch rest (applyUpd ch pc cp) := rfl
      have happ : applyUpd ch pc cp = cp := by
        unfold applyUpd
        rw [hkm']
        simp
      rw [hcp', happ]
      have hrowrec : (pc :: rest).map (gameRow gid pos) =
          gameRow gid pos pc :: rest.map (gameRow gid pos) := rfl
      rw [hrowrec]
      have hstep : undoFold ch (gameRow gid pos pc :: rest.map (gameRow gid pos))
          (applyFold ch rest cp) =
          undoFold ch (rest.map (gameRow gid pos))
            (undoUpd ch (gameRow gid pos pc) (applyFold ch rest cp)) := rfl
      rw [hstep]
      have hkm2 : keyMatch (gameRow gid pos pc).user_id ch (applyFold ch rest cp) = false := by
        show keyMatch pc.1.user_id ch (applyFold ch rest cp) = false
        rw [keyMatch_congr pc.1.user_id ch cp (applyFold ch rest cp)
          (applyFold_keys ch rest cp).1 (applyFold_keys ch rest cp).2]
        exact hkm'
      have hundo : undoUpd ch (gameRow gid pos pc) (applyFold ch rest cp) =
          applyFold ch rest cp := by
        unfold undoUpd
        rw [hkm2]
        simp
      rw [hundo]
      exact ih gid pos cp hnd.2 (fun pc' h hk => hmatch pc' (List.mem_cons_of_mem pc h) hk)

lemma create_undo_gambling (ch : String) :
    ∀ (pcs : List (ChannelPlayer × ℤ)) (gid : ℕ) (pos : List (String × ℕ))
      (cp : ChannelPlayer) (pc0 : ChannelPlayer × ℤ),
      (pcs.map (fun pc => pc.1.user_id)).Nodup →
      pc0 ∈ pcs →
      keyMatch pc0.1.user_id ch cp = true →
      pc0.1.gambling = true →
      (undoFold ch (pcs.map (gameRow gid pos)) (applyFold ch pcs cp)).gambling = false := by
  intro pcs
  induction pcs with
  | nil =>
    intro gid pos cp pc0 _ hmem _ _
    simp at hmem
  | cons pc rest ih =>
    intro gid pos cp pc0 hnd hmem hkm0 hg
    rw [List.map_cons] at hnd
    rw [List.nodup_cons] at hnd
    rcases List.mem_cons.mp hmem with heq | hmem'
    · -- the flagged participant is this very row
      subst heq
      have hkm := hkm0
      have hkeys := (keyMatch_iff _ _ _).mp hkm
      have hcp' : applyFold ch (pc0 :: rest) cp =
          applyFold ch rest (applyUpd ch pc0 cp) := rfl
      have happ : applyUpd ch pc0 cp =
          { cp with rating := pc0.1.rating + pc0.2 * (if pc0.1.gambling then 2 else 1),
                    gambling := if pc0.1.gambling then false else cp.gambling } := by
        unfold applyUpd
        rw [if_pos hkm]
      have hnorest : ∀ pc' ∈ rest, keyMatch pc'.1.user_id ch (applyUpd ch pc0 cp) = false := by
        intro pc' hpc'
        have hne : (applyUpd ch pc0 cp).user_id ≠ pc'.1.user_id := by
          rw [(applyUpd_keys ch pc0 cp).1, hkeys.1]
          intro heq
          exact hnd.1 (heq ▸ List.mem_map_of_mem (fun pc => pc.1.user_id) hpc')
        unfold keyMatch
        rw [beq_string_false _ _ hne, Bool.false_and]
      have hfold : applyFold ch (pc0 :: rest) cp = applyUpd ch pc0 cp := by
        rw [hcp']
        exact applyFold_nomatch ch rest _ hnorest
      rw [hfold]
      have hrowrec : (pc0 :: rest).map (gameRow gid pos) =
          gameRow gid pos pc0 :: rest.map (gameRow gid pos) := rfl
      rw [hrowrec]
      have hstep : undoFold ch (gameRow gid pos pc0 :: rest.map (gameRow gid pos))
          (applyUpd ch pc0 cp) =
          undoFold ch (rest.map (gameRow gid pos))
            (undoUpd ch (gameRow gid pos pc0) (applyUpd ch pc0 cp)) := rfl
      rw [hstep]
      have hkm2 : keyMatch (gameRow gid pos pc0).user_id ch (applyUpd ch pc0 cp) = true := by
        show keyMatch pc0.1.user_id ch (applyUpd ch pc0 cp) = true
        rw [keyMatch_congr pc0.1.user_id ch cp (applyUpd ch pc0 cp)
          (applyUpd_keys ch pc0 cp).1 (applyUpd_keys ch pc0 cp).2]
        exact hkm
      have hundo : undoUpd ch (gameRow gid pos pc0) (applyUpd ch pc0 cp) =
          { applyUpd ch pc0 cp with rating := pc0.1.rating } := by
        unfold undoUpd
        rw [hkm2]
        simp [gameRow]
      rw [hundo]
      have hnorest2 : ∀ pg ∈ rest.map (gameRow gid pos),
          keyMatch pg.user_id ch ({ applyUpd ch pc0 cp with rating := pc0.1.rating }) = false := by
        intro pg hpg
        rw [List.mem_map] at hpg
        obtain ⟨pc', hpc', hrow⟩ := hpg
        have huser : pg.user_id = pc'.1.user_id := by rw [← hrow]; rfl
        have hne : ({ applyUpd ch pc0 cp with rating := pc0.1.rating } : ChannelPlayer).user_id
            ≠ pg.user_id := by
          show (applyUpd ch pc0 cp).user_id ≠ pg.user_id
          rw [(applyUpd_keys ch pc0 cp).1, hkeys.1, huser]
          intro heq
          exact hnd.1 (heq ▸ List.mem_map_of_mem (fun pc => pc.1.user_id) hpc')
        unfold keyMatch
        rw [beq_string_false _ _ hne, Bool.false_and]
      rw [undoFold_nomatch ch _ _ hnorest2]
      rw [happ]
      simp [hg]
    · -- the flagged participant sits further down the list
      have hne : pc.1.user_id ≠ pc0.1.user_id := by
        intro heq
        exact hnd.1 (heq ▸ List.mem_map_of_mem (fun pc => pc.1.user_id) hmem')
      have hkeys0 := (keyMatch_iff _ _ _).mp hkm0
      have hkm' : keyMatch pc.1.user_id ch cp = false := by
        unfold keyMatch
        have h1 : cp.user_id ≠ pc.1.user_id := by
          rw [hkeys0.1]
          exact fun h => hne h.symm
        rw [beq_string_false _ _ h1, Bool.false_and]
      have hcp' : applyFold ch (pc :: rest) cp =
          applyFold ch rest (applyUpd ch pc cp) := rfl
      have happ : applyUpd ch pc cp = cp := by
        unfold applyUpd
        rw [hkm']
        simp
      rw [hcp', happ]
      have hrowrec : (pc :: rest).map (gameRow gid pos) =
          gameRow gid pos pc :: rest.map (gameRow gid pos) := rfl
      rw [hrowrec]
      have hstep : undoFold ch (gameRow gid pos pc :: rest.map (gameRow gid pos))
          (applyFold ch rest cp) =
          undoFold ch (rest.map (gameRow gid pos))
            (undoUpd ch (gameRow gid pos pc) (applyFold ch rest cp)) := rfl
      rw [hstep]
      have hkm2 : keyMatch (gameRow gid pos pc).user_id ch (applyFold ch rest cp) = false := by
        show keyMatch pc.1.user_id ch (applyFold ch rest cp) = false
        rw [keyMatch_congr pc.1.user_id ch cp (applyFold ch rest cp)
          (applyFold_keys ch rest cp).1 (applyFold_keys ch rest cp).2]
        exact hkm'
      have hundo : undoUpd ch (gameRow gid pos pc) (applyFold ch rest cp) =
          applyFold ch rest cp := by
        unfold undoUpd
        rw [hkm2]
        simp
      rw [hundo]
      exact ih gid pos cp pc0 hnd.2 hmem' hkm0 hg

/-! ### Structure of a successful `create_game` -/

lemma create_game_inserted_fields (s : Store) (ch : String) (team : Option String)
    (ts : ℤ) :
    (create_game_inserted s ch team ts).players = s.players ∧
    (create_game_inserted s ch team ts).channel_players = s.channel_players ∧
    (create_game_inserted s ch team ts).games = s.games ++ [⟨s.next_game_id, ch, ts⟩] ∧
    (create_game_inserted s ch team ts).player_games = s.player_games ∧
    (create_game_inserted s ch team ts).next_game_id = s.next_game_id + 1 ∧
    ((create_game_inserted s ch team ts).channels.find? (chanMatch ch)).isSome := by
  have hfr := get_or_create_channel_frame s ch team
  have hpres := get_or_create_channel_present_after s ch team
  unfold create_game_inserted
  refine ⟨hfr.1, hfr.2.1, ?_, hfr.2.2.2.1, ?_, hpres⟩
  · show (get_or_create_channel s ch team).2.games ++
        [⟨(get_or_create_channel s ch team).2.next_game_id, ch, ts⟩] =
        s.games ++ [⟨s.next_game_id, ch, ts⟩]
    rw [hfr.2.2.1, hfr.2.2.2.2]
  · show (get_or_create_channel s ch team).2.next_game_id + 1 = s.next_game_id + 1
    rw [hfr.2.2.2.2]

lemma keysUnique_congr (s t : Store) (h : s.channel_players = t.channel_players) :
    keysUnique s ↔ keysUnique t := by
  unfold keysUnique
  rw [h]

lemma create_game_ok (s : Store) (ch : String) (ranked : List (List String))
    (team : Option String) (ts : ℤ)
    (h2 : ¬ (flattenRanked ranked).length < 2)
    (hnd : (flattenRanked ranked).Nodup) :
    create_game s ch ranked team ts =
      (applyGameUpdates
        (get_channel_k_factor (collectChannelPlayers (create_game_inserted s ch team ts)
          (flattenRanked ranked) ch).2 ch).2
        s.next_game_id ch (buildPositions ranked)
        ((collectChannelPlayers (create_game_inserted s ch team ts)
            (flattenRanked ranked) ch).1.zip
          (calculate_group_elo_with_draws
            ((collectChannelPlayers (create_game_inserted s ch team ts)
                (flattenRanked ranked) ch).1.map (fun p => p.rating))
            ((collectChannelPlayers (create_game_inserted s ch team ts)
                (flattenRanked ranked) ch).1.map
              (fun p => lookupPos (buildPositions ranked) p.user_id))
            (get_channel_k_factor (collectChannelPlayers (create_game_inserted s ch team ts)
              (flattenRanked ranked) ch).2 ch).1)),
       Except.ok s.next_game_id) := by
  simp only [create_game]
  rw [if_neg h2, if_neg (by
    rw [not_not]
    exact ((length_eq_dedup_iff_nodup (flattenRanked ranked)).mpr hnd))]

lemma get_channel_k_factor_present (s : Store) (ch : String)
    (h : (s.channels.find? (chanMatch ch)).isSome) :
    (get_channel_k_factor s ch).2 = s := by
  unfold get_channel_k_factor
  show (get_or_create_channel s ch none).2 = s
  exact get_or_create_channel_none_present s ch h

lemma foldl_length_invariant {α β : Type} (f : List α → β → List α)
    (h : ∀ l b, (f l b).length = l.length) :
    ∀ (xs : List β) (l : List α), (xs.foldl f l).length = l.length := by
  intro xs
  induction xs with
  | nil => intro l; rfl
  | cons x rest ih =>
    intro l
    rw [List.foldl_cons, ih (f l x), h l x]

lemma calc_group_length (elos : List ℤ) (pos : List ℕ) (k : ℤ) :
    (calculate_group_elo_with_draws elos pos k).length = elos.length := by
  unfold calculate_group_elo_with_draws
  rw [List.length_zipWith]
  have hinner : ∀ (i : ℕ) (l : List ℝ) (j : ℕ),
      ((fun changes j =>
        if i = j then changes
        else
          let elo_i := elos.getD i 0
          let elo_j := elos.getD j 0
          let pos_i := pos.getD i 0
          let pos_j := pos.getD j 0
          if pos_i = pos_j then
            let p := calculate_elo_draw elo_i elo_j k
            let changes := changes.set i (changes.getD i 0 + ((p.1 - elo_i : ℤ) : ℝ) / ((elos.length : ℝ) - 1))
            changes.set j (changes.getD j 0 + ((p.2 - elo_j : ℤ) : ℝ) / ((elos.length : ℝ) - 1))
          else if pos_i < pos_j then
            let p := calculate_elo_win elo_i elo_j k
            let changes := changes.set i (changes.getD i 0 + ((p.1 - elo_i : ℤ) : ℝ) / ((elos.length : ℝ) - 1))
            changes.set j (changes.getD j 0 + ((p.2 - elo_j : ℤ) : ℝ) / ((elos.length : ℝ) - 1))
          else changes) l j).length = l.length := by
    intro i l j
    dsimp only
    split
    · rfl
    · split
      · rw [List.length_set, List.length_set]
      · split
        · rw [List.length_set, List.length_set]
        · rfl
  have houter : ∀ (l : List ℝ),
      ((List.range elos.length).foldl (fun changes i =>
        (List.range elos.length).foldl (fun changes j =>
          if i = j then changes
          else
            let elo_i := elos.getD i 0
            let elo_j := elos.getD j 0
            let pos_i := pos.getD i 0
            let pos_j := pos.getD j 0
            if pos_i = pos_j then
              let p := calculate_elo_draw elo_i elo_j k
              let changes := changes.set i (changes.getD i 0 + ((p.1 - elo_i : ℤ) : ℝ) / ((elos.length : ℝ) - 1))
              changes.set j (changes.getD j 0 + ((p.2 - elo_j : ℤ) : ℝ) / ((elos.length : ℝ) - 1))
            else if pos_i < pos_j then
              let p := calculate_elo_win elo_i elo_j k
              let changes := changes.set i (changes.getD i 0 + ((p.1 - elo_i : ℤ) : ℝ) / ((elos.length : ℝ) - 1))
              changes.set j (changes.getD j 0 + ((p.2 - elo_j : ℤ) : ℝ) / ((elos.length : ℝ) - 1))
            else changes) changes) l).length = l.length := by
    intro l
    apply foldl_length_invariant
    intro l' i
    exact foldl_length_invariant _ (fun l'' j => hinner i l'' j) (List.range elos.length) l'
  rw [houter (List.replicate elos.length 0), List.length_replicate]
  exact Nat.min_self _

/-! ### The read queries depend only on what they read -/

lemma gameChannelOf_congr (s t : Store) (hg : s.games = t.games) (gid : ℕ) :
    gameChannelOf s gid = gameChannelOf t gid := by
  unfold gameChannelOf
  rw [hg]

lemma lbCount_congr (s t : Store) (hpg : s.player_games = t.player_games)
    (hg : s.games = t.games) (u ch : String) :
    lbCount s u ch = lbCount t u ch := by
  unfold lbCount
  rw [hpg]
  have hfun : (fun pg : PlayerGame => match gameChannelOf s pg.game_id with
      | some ch' => ch' == ch
      | none => true) = (fun pg : PlayerGame => match gameChannelOf t pg.game_id with
      | some ch' => ch' == ch
      | none => true) := funext fun pg => by rw [gameChannelOf_congr s t hg pg.game_id]
  rw [hfun]

lemma get_channel_leaderboard_congr (s t : Store)
    (hp : s.players = t.players) (hv : membershipView s = membershipView t)
    (hpg : s.player_games = t.player_games) (hg : s.games = t.games)
    (ch : String) (n : ℕ) :
    get_channel_leaderboard s ch n = get_channel_leaderboard t ch n := by
  unfold get_channel_leaderboard
  rw [hv, hp]
  rw [List.filterMap_congr (fun v _ => by
    rw [lbCount_congr s t hpg hg v.1 ch])]

lemma get_player_game_history_congr (s t : Store)
    (hpg : s.player_games = t.player_games) (hg : s.games = t.games)
    (u ch : String) (n : ℕ) :
    get_player_game_history s u ch n = get_player_game_history t u ch n := by
  unfold get_player_game_history
  rw [hpg]
  rw [List.filterMap_congr (fun pg _ => by rw [hg])]

lemma storedRating_congr_aux (u ch : String) :
    ∀ (l1 l2 : List ChannelPlayer),
      l1.map (fun cp => (cp.user_id, cp.channel_id, cp.rating)) =
        l2.map (fun cp => (cp.user_id, cp.channel_id, cp.rating)) →
      (l1.find? (keyMatch u ch)).map (fun cp => cp.rating) =
        (l2.find? (keyMatch u ch)).map (fun cp => cp.rating) := by
  intro l1
  induction l1 with
  | nil =>
    intro l2 h
    cases l2 with
    | nil => rfl
    | cons b bs => simp at h
  | cons a as ih =>
    intro l2 h
    cases l2 with
    | nil => simp at h
    | cons b bs =>
      rw [List.map_cons, List.map_cons] at h
      have hhead := (List.cons.injEq _ _ _ _).mp h
      have h1 : a.user_id = b.user_id := congrArg (fun p => p.1) hhead.1
      have h2 : a.channel_id = b.channel_id := congrArg (fun p => p.2.1) hhead.1
      have h3 : a.rating = b.rating := congrArg (fun p => p.2.2) hhead.1
      have hkm : keyMatch u ch a = keyMatch u ch b := keyMatch_congr u ch b a h1 h2
      by_cases hk : keyMatch u ch a = true
      · rw [List.find?_cons_of_pos _ hk, List.find?_cons_of_pos _ (hkm ▸ hk)]
        simp [h3]
      · have hk' : ¬ keyMatch u ch b = true := fun hb => hk (hkm.symm ▸ hb)
        rw [List.find?_cons_of_neg _ hk, List.find?_cons_of_neg _ hk']
        exact ih bs hhead.2

lemma storedRating_congr (s t : Store) (hv : membershipView s = membershipView t)
    (u ch : String) : storedRating s u ch = storedRating t u ch := by
  unfold storedRating
  exact storedRating_congr_aux u ch s.channel_players t.channel_players hv

lemma create_game_fields (s : Store) (ch : String) (ranked : List (List String))
    (team : Option String) (ts : ℤ)
    (h2 : ¬ (flattenRanked ranked).length < 2)
    (hnd : (flattenRanked ranked).Nodup)
    (hkeys : keysUnique s) :
    ∃ (pcs : List (ChannelPlayer × ℤ)) (created : List ChannelPlayer),
      (create_game s ch ranked team ts).2 = Except.ok s.next_game_id ∧
      ((∀ u ∈ flattenRanked ranked, u ∈ s.players) →
        (create_game s ch ranked team ts).1.players = s.players) ∧
      (create_game s ch ranked team ts).1.games =
        s.games ++ [⟨s.next_game_id, ch, ts⟩] ∧
      (create_game s ch ranked team ts).1.player_games =
        s.player_games ++ pcs.map (gameRow s.next_game_id (buildPositions ranked)) ∧
      (create_game s ch ranked team ts).1.channel_players =
        (s.channel_players ++ created).map (applyFold ch pcs) ∧
      (create_game s ch ranked team ts).1.next_game_id = s.next_game_id + 1 ∧
      pcs.map (fun pc => pc.1.user_id) = flattenRanked ranked ∧
      (∀ pc ∈ pcs, pc.1.channel_id = ch) ∧
      (∀ pc ∈ pcs, pc.1 ∈ s.channel_players ++ created) ∧
      (((s.channel_players ++ created).map (fun cp => (cp.user_id, cp.channel_id))).Nodup) ∧
      (∀ cp ∈ created, cp.rating = 1000 ∧ cp.gambling = false) ∧
      ((∀ u ∈ flattenRanked ranked, (s.channel_players.find? (keyMatch u ch)).isSome) →
        created = []) ∧
      (∀ pc ∈ pcs, ∀ cp, s.channel_players.find? (keyMatch pc.1.user_id ch) = some cp →
        pc.1 = cp) := by
  have hIns := create_game_inserted_fields s ch team ts
  have hkeysIns : keysUnique (create_game_inserted s ch team ts) :=
    (keysUnique_congr _ s hIns.2.1).mpr hkeys
  obtain ⟨created, c1, c2, c3, c4, c5, c6, c7, c8, c9, c10, c11, c12, c13, c14, c15⟩ :=
    collect_spec ch (flattenRanked ranked) (create_game_inserted s ch team ts) hnd hkeysIns
  have hpres3 : (((collectChannelPlayers (create_game_inserted s ch team ts)
      (flattenRanked ranked) ch).2.channels.find? (chanMatch ch)).isSome) :=
    c15 (Or.inl hIns.2.2.2.2.2)
  have hkf2 : (get_channel_k_factor (collectChannelPlayers (create_game_inserted s ch team ts)
      (flattenRanked ranked) ch).2 ch).2 =
      (collectChannelPlayers (create_game_inserted s ch team ts)
        (flattenRanked ranked) ch).2 :=
    get_channel_k_factor_present _ ch hpres3
  have hok := create_game_ok s ch ranked team ts h2 hnd
  have happly := applyGameUpdates_spec s.next_game_id ch (buildPositions ranked)
    ((collectChannelPlayers (create_game_inserted s ch team ts)
        (flattenRanked ranked) ch).1.zip
      (calculate_group_elo_with_draws
        ((collectChannelPlayers (create_game_inserted s ch team ts)
            (flattenRanked ranked) ch).1.map (fun p => p.rating))
        ((collectChannelPlayers (create_game_inserted s ch team ts)
            (flattenRanked ranked) ch).1.map
          (fun p => lookupPos (buildPositions ranked) p.user_id))
        (get_channel_k_factor (collectChannelPlayers (create_game_inserted s ch team ts)
          (flattenRanked ranked) ch).2 ch).1))
    (get_channel_k_factor (collectChannelPlayers (create_game_inserted s ch team ts)
      (flattenRanked ranked) ch).2 ch).2
  obtain ⟨a1, a2, a3, a4, a5, a6⟩ := happly
  have hlench : (collectChannelPlayers (create_game_inserted s ch team ts)
        (flattenRanked ranked) ch).1.length ≤
      (calculate_group_elo_with_draws
        ((collectChannelPlayers (create_game_inserted s ch team ts)
            (flattenRanked ranked) ch).1.map (fun p => p.rating))
        ((collectChannelPlayers (create_game_inserted s ch team ts)
            (flattenRanked ranked) ch).1.map
          (fun p => lookupPos (buildPositions ranked) p.user_id))
        (get_channel_k_factor (collectChannelPlayers (create_game_inserted s ch team ts)
          (flattenRanked ranked) ch).2 ch).1).length := by
    rw [calc_group_length, List.length_map]
  have hfst : ((collectChannelPlayers (create_game_inserted s ch team ts)
        (flattenRanked ranked) ch).1.zip
      (calculate_group_elo_with_draws
        ((collectChannelPlayers (create_game_inserted s ch team ts)
            (flattenRanked ranked) ch).1.map (fun p => p.rating))
        ((collectChannelPlayers (create_game_inserted s ch team ts)
            (flattenRanked ranked) ch).1.map
          (fun p => lookupPos (buildPositions ranked) p.user_id))
        (get_channel_k_factor (collectChannelPlayers (create_game_inserted s ch team ts)
          (flattenRanked ranked) ch).2 ch).1)).map Prod.fst =
      (collectChannelPlayers (create_game_inserted s ch team ts)
        (flattenRanked ranked) ch).1 :=
    List.map_fst_zip _ _ hlench
  have hmemfst : ∀ pc ∈ ((collectChannelPlayers (create_game_inserted s ch team ts)
        (flattenRanked ranked) ch).1.zip
      (calculate_group_elo_with_draws
        ((collectChannelPlayers (create_game_inserted s ch team ts)
            (flattenRanked ranked) ch).1.map (fun p => p.rating))
        ((collectChannelPlayers (create_game_inserted s ch team ts)
            (flattenRanked ranked) ch).1.map
          (fun p => lookupPos (buildPositions ranked) p.user_id))
        (get_channel_k_factor (collectChannelPlayers (create_game_inserted s ch team ts)
          (flattenRanked ranked) ch).2 ch).1)),
      pc.1 ∈ (collectChannelPlayers (create_game_inserted s ch team ts)
        (flattenRanked ranked) ch).1 := by
    intro pc hpc
    rw [← hfst]
    exact List.mem_map_of_mem Prod.fst hpc
  refine ⟨(collectChannelPlayers (create_game_inserted s ch team ts)
        (flattenRanked ranked) ch).1.zip
      (calculate_group_elo_with_draws
        ((collectChannelPlayers (create_game_inserted s ch team ts)
            (flattenRanked ranked) ch).1.map (fun p => p.rating))
        ((collectChannelPlayers (create_game_inserted s ch team ts)
            (flattenRanked ranked) ch).1.map
          (fun p => lookupPos (buildPositions ranked) p.user_id))
        (get_channel_k_factor (collectChannelPlayers (create_game_inserted s ch team ts)
          (flattenRanked ranked) ch).2 ch).1),
    created, ?_, ?_, ?_, ?_, ?_, ?_, ?_, ?_, ?_, ?_, ?_, ?_, ?_⟩
  · rw [hok]
  · intro hall
    rw [hok]
    show (applyGameUpdates _ _ _ _ _).players = s.players
    rw [a1, hkf2, c12 (fun u hu => by rw [hIns.1]; exact hall u hu), hIns.1]
  · rw [hok]
    show (applyGameUpdates _ _ _ _ _).games = _
    rw [a3, hkf2, c9, hIns.2.2.1]
  · rw [hok]
    show (applyGameUpdates _ _ _ _ _).player_games = _
    rw [a5, hkf2, c10, hIns.2.2.2.1]
  · rw [hok]
    show (applyGameUpdates _ _ _ _ _).channel_players = _
    rw [a6, hkf2, c1, hIns.2.1]
  · rw [hok]
    show (applyGameUpdates _ _ _ _ _).next_game_id = _
    rw [a4, hkf2, c11, hIns.2.2.2.2.1]
  · rw [show (fun pc : ChannelPlayer × ℤ => pc.1.user_id) =
        ((fun cp : ChannelPlayer => cp.user_id) ∘ Prod.fst) from rfl, ← List.map_map, hfst, c3]
  · intro pc hpc
    exact c4 pc.1 (hmemfst pc hpc)
  · intro pc hpc
    have h := c5 pc.1 (hmemfst pc hpc)
    rw [c1, hIns.2.1] at h
    exact h
  · have h := c2
    unfold keysUnique at h
    rw [c1, hIns.2.1] at h
    exact h
  · exact c7
  · intro hall
    apply c8
    intro u hu
    rw [hIns.2.1]
    exact hall u hu
  · intro pc hpc cp hfind
    refine c6 pc.1 (hmemfst pc hpc) cp ?_
    rw [hIns.2.1]
    exact hfind

lemma create_then_undo (s : Store) (ch : String) (ranked : List (List String))
    (team : Option String) (ts : ℤ)
    (h2 : ¬ (flattenRanked ranked).length < 2)
    (hnd : (flattenRanked ranked).Nodup)
    (hkeys : keysUnique s)
    (hids : idsBounded s)
    (hts : ∀ g ∈ s.games, g.channel_id = ch → g.timestamp < ts)
    (hmem : ∀ u ∈ flattenRanked ranked, u ∈ s.players ∧
      (s.channel_players.find? (keyMatch u ch)).isSome) :
    (undo_last_game (create_game s ch ranked team ts).1 ch).2 = Except.ok ts ∧
    (undo_last_game (create_game s ch ranked team ts).1 ch).1.games = s.games ∧
    (undo_last_game (create_game s ch ranked team ts).1 ch).1.player_games = s.player_games ∧
    (undo_last_game (create_game s ch ranked team ts).1 ch).1.players = s.players ∧
    membershipView (undo_last_game (create_game s ch ranked team ts).1 ch).1 =
      membershipView s := by
  obtain ⟨pcs, created, f1, f2, f3, f4, f5, f6, f7, f8, f9, f10, f11, f12, f13⟩ :=
    create_game_fields s ch ranked team ts h2 hnd hkeys
  have hcreated : created = [] := f12 (fun u hu => (hmem u hu).2)
  subst hcreated
  rw [List.append_nil] at f5 f9 f10
  have hgmem : (⟨s.next_game_id, ch, ts⟩ : Game) ∈ (create_game s ch ranked team ts).1.games := by
    rw [f3]
    exact List.mem_append_right _ (List.mem_singleton.mpr rfl)
  have hlast : lastGame (create_game s ch ranked team ts).1 ch =
      some ⟨s.next_game_id, ch, ts⟩ := by
    apply lastGame_of_strict_max _ _ _ hgmem rfl
    intro h hm hch hne
    rw [f3] at hm
    rcases List.mem_append.mp hm with hold | hnewg
    · exact hts h hold hch
    · exact absurd (List.mem_singleton.mp hnewg) hne
  obtain ⟨u1, u2, u3, u4, u5, u6, u7⟩ :=
    undo_last_game_some (create_game s ch ranked team ts).1 ch ⟨s.next_game_id, ch, ts⟩ hlast
  have hgid : (⟨s.next_game_id, ch, ts⟩ : Game).id = s.next_game_id := rfl
  have hgts : (⟨s.next_game_id, ch, ts⟩ : Game).timestamp = ts := rfl
  rw [hgts] at u1
  rw [hgid] at u4 u5 u6
  have hfilter_eq : (create_game s ch ranked team ts).1.player_games.filter
      (fun pg => pg.game_id == s.next_game_id) =
      pcs.map (gameRow s.next_game_id (buildPositions ranked)) := by
    rw [f4, List.filter_append]
    have hold : s.player_games.filter (fun pg => pg.game_id == s.next_game_id) = [] := by
      rw [List.filter_eq_nil]
      intro pg hpg
      rw [beq_iff_eq]
      exact Nat.ne_of_lt (hids.2 pg hpg)
    have hnew : (pcs.map (gameRow s.next_game_id (buildPositions ranked))).filter
        (fun pg => pg.game_id == s.next_game_id) =
        pcs.map (gameRow s.next_game_id (buildPositions ranked)) := by
      rw [List.filter_eq_self]
      intro pg hpg
      rw [List.mem_map] at hpg
      obtain ⟨pc, _, hrow⟩ := hpg
      rw [← hrow]
      exact beq_self_eq_true _
    rw [hold, hnew, List.nil_append]
  refine ⟨u1, ?_, ?_, ?_, ?_⟩
  · rw [u5, f3, List.filter_append]
    have hold : s.games.filter (fun gg => gg.id != s.next_game_id) = s.games := by
      rw [List.filter_eq_self]
      intro g hg
      rw [bne_iff_ne]
      exact Nat.ne_of_lt (hids.1 g hg)
    have hnewg : ([⟨s.next_game_id, ch, ts⟩] : List Game).filter
        (fun gg => gg.id != s.next_game_id) = [] := by
      rw [List.filter_eq_nil]
      intro g hg
      rw [List.mem_singleton.mp hg]
      simp
    rw [hold, hnewg, List.append_nil]
  · rw [u6, f4, List.filter_append]
    have hold : s.player_games.filter (fun pg => pg.game_id != s.next_game_id) =
        s.player_games := by
      rw [List.filter_eq_self]
      intro pg hpg
      rw [bne_iff_ne]
      exact Nat.ne_of_lt (hids.2 pg hpg)
    have hnew : (pcs.map (gameRow s.next_game_id (buildPositions ranked))).filter
        (fun pg => pg.game_id != s.next_game_id) = [] := by
      rw [List.filter_eq_nil]
      intro pg hpg
      rw [List.mem_map] at hpg
      obtain ⟨pc, _, hrow⟩ := hpg
      rw [← hrow]
      simp [gameRow]
    rw [hold, hnew, List.append_nil]
  · rw [u2]
    exact f2 (fun u hu => (hmem u hu).1)
  · unfold membershipView
    rw [u4, hfilter_eq, f5, List.map_map, List.map_map]
    apply List.map_congr_left
    intro cp hcp
    show ((undoFold ch (pcs.map (gameRow s.next_game_id (buildPositions ranked)))
        (applyFold ch pcs cp)).user_id,
      (undoFold ch (pcs.map (gameRow s.next_game_id (buildPositions ranked)))
        (applyFold ch pcs cp)).channel_id,
      (undoFold ch (pcs.map (gameRow s.next_game_id (buildPositions ranked)))
        (applyFold ch pcs cp)).rating) = (cp.user_id, cp.channel_id, cp.rating)
    have hu := (undoFold_keys ch (pcs.map (gameRow s.next_game_id (buildPositions ranked)))
      (applyFold ch pcs cp)).1.trans (applyFold_keys ch pcs cp).1
    have hc := (undoFold_keys ch (pcs.map (gameRow s.next_game_id (buildPositions ranked)))
      (applyFold ch pcs cp)).2.trans (applyFold_keys ch pcs cp).2
    have husers : (pcs.map (fun pc => pc.1.user_id)).Nodup := by
      rw [f7]
      exact hnd
    have hmatch : ∀ pc ∈ pcs, keyMatch pc.1.user_id ch cp = true → pc.1.rating = cp.rating := by
      intro pc hpc hkm
      have hk := (keyMatch_iff _ _ _).mp hkm
      have hpcmem : pc.1 ∈ s.channel_players := f9 pc hpc
      have hpckey : keyMatch pc.1.user_id ch pc.1 = true := by
        rw [keyMatch_iff]
        exact ⟨rfl, f8 pc hpc⟩
      have hcpkey : keyMatch pc.1.user_id ch cp = true := hkm
      have hfind1 := find?_eq_of_mem_unique s.channel_players hkeys pc.1 hpcmem
        pc.1.user_id ch hpckey
      have hfind2 := find?_eq_of_mem_unique s.channel_players hkeys cp hcp
        pc.1.user_id ch hcpkey
      rw [hfind1] at hfind2
      rw [Option.some.inj hfind2]
    have hr := create_undo_rating ch pcs s.next_game_id (buildPositions ranked) cp husers hmatch
    rw [hu, hc, hr]

lemma create_undo_flag (s : Store) (ch : String) (ranked : List (List String))
    (team : Option String) (ts : ℤ)
    (h2 : ¬ (flattenRanked ranked).length < 2)
    (hnd : (flattenRanked ranked).Nodup)
    (hkeys : keysUnique s)
    (hids : idsBounded s)
    (hts : ∀ g ∈ s.games, g.channel_id = ch → g.timestamp < ts)
    (hmem : ∀ u ∈ flattenRanked ranked, u ∈ s.players ∧
      (s.channel_players.find? (keyMatch u ch)).isSome)
    (u : String) (cp0 : ChannelPlayer)
    (hu : u ∈ flattenRanked ranked)
    (hfind : s.channel_players.find? (keyMatch u ch) = some cp0)
    (hgamb : cp0.gambling = true) :
    storedRating (undo_last_game (create_game s ch ranked team ts).1 ch).1 u ch =
      some cp0.rating ∧
    storedGambling (undo_last_game (create_game s ch ranked team ts).1 ch).1 u ch =
      some false := by
  obtain ⟨pcs, created, f1, f2, f3, f4, f5, f6, f7, f8, f9, f10, f11, f12, f13⟩ :=
    create_game_fields s ch ranked team ts h2 hnd hkeys
  have hcreated : created = [] := f12 (fun v hv => (hmem v hv).2)
  subst hcreated
  rw [List.append_nil] at f5 f9 f10
  have hgmem : (⟨s.next_game_id, ch, ts⟩ : Game) ∈ (create_game s ch ranked team ts).1.games := by
    rw [f3]
    exact List.mem_append_right _ (List.mem_singleton.mpr rfl)
  have hlast : lastGame (create_game s ch ranked team ts).1 ch =
      some ⟨s.next_game_id, ch, ts⟩ := by
    apply lastGame_of_strict_max _ _ _ hgmem rfl
    intro h hm hch hne
    rw [f3] at hm
    rcases List.mem_append.mp hm with hold | hnewg
    · exact hts h hold hch
    · exact absurd (List.mem_singleton.mp hnewg) hne
  obtain ⟨u1, u2, u3, u4, u5, u6, u7⟩ :=
    undo_last_game_some (create_game s ch ranked team ts).1 ch ⟨s.next_game_id, ch, ts⟩ hlast
  have hgid : (⟨s.next_game_id, ch, ts⟩ : Game).id = s.next_game_id := rfl
  rw [hgid] at u4
  have hfilter_eq : (create_game s ch ranked team ts).1.player_games.filter
      (fun pg => pg.game_id == s.next_game_id) =
      pcs.map (gameRow s.next_game_id (buildPositions ranked)) := by
    rw [f4, List.filter_append]
    have hold : s.player_games.filter (fun pg => pg.game_id == s.next_game_id) = [] := by
      rw [List.filter_eq_nil_iff]
      intro pg hpg
      rw [beq_iff_eq]
      exact Nat.ne_of_lt (hids.2 pg hpg)
    have hnew : (pcs.map (gameRow s.next_game_id (buildPositions ranked))).filter
        (fun pg => pg.game_id == s.next_game_id) =
        pcs.map (gameRow s.next_game_id (buildPositions ranked)) := by
      rw [List.filter_eq_self]
      intro pg hpg
      rw [List.mem_map] at hpg
      obtain ⟨pc, _, hrow⟩ := hpg
      rw [← hrow]
      exact beq_self_eq_true _
    rw [hold, hnew, List.nil_append]
  have hcp2 : (undo_last_game (create_game s ch ranked team ts).1 ch).1.channel_players =
      s.channel_players.map (fun cp =>
        undoFold ch (pcs.map (gameRow s.next_game_id (buildPositions ranked)))
          (applyFold ch pcs cp)) := by
    rw [u4, hfilter_eq, f5, List.map_map]
    rfl
  have hpred : (keyMatch u ch ∘ fun cp =>
      undoFold ch (pcs.map (gameRow s.next_game_id (buildPositions ranked)))
        (applyFold ch pcs cp)) = keyMatch u ch := by
    funext cp
    show keyMatch u ch (undoFold ch (pcs.map (gameRow s.next_game_id (buildPositions ranked)))
      (applyFold ch pcs cp)) = keyMatch u ch cp
    exact keyMatch_congr u ch cp _
      ((undoFold_keys ch _ _).1.trans (applyFold_keys ch pcs cp).1)
      ((undoFold_keys ch _ _).2.trans (applyFold_keys ch pcs cp).2)
  have hfind2 : (undo_last_game (create_game s ch ranked team ts).1 ch).1.channel_players.find?
      (keyMatch u ch) = some (undoFold ch (pcs.map (gameRow s.next_game_id
        (buildPositions ranked))) (applyFold ch pcs cp0)) := by
    rw [hcp2, List.find?_map, hpred, hfind]
    rfl
  have hcp0mem : cp0 ∈ s.channel_players := List.mem_of_find?_eq_some hfind
  have hcp0key : keyMatch u ch cp0 = true := List.find?_some hfind
  have husers : (pcs.map (fun pc => pc.1.user_id)).Nodup := by
    rw [f7]
    exact hnd
  have hmatch : ∀ pc ∈ pcs, keyMatch pc.1.user_id ch cp0 = true → pc.1.rating = cp0.rating := by
    intro pc hpc hkm
    have hfind1 := find?_eq_of_mem_unique s.channel_players hkeys cp0 hcp0mem
      pc.1.user_id ch hkm
    rw [f13 pc hpc cp0 hfind1]
  obtain ⟨pc0, hpc0, hpc0u⟩ := List.mem_map.mp (f7 ▸ hu)
  have hpc0key : keyMatch pc0.1.user_id ch cp0 = true := by rw [hpc0u]; exact hcp0key
  have hpc0eq : pc0.1 = cp0 :=
    f13 pc0 hpc0 cp0 (find?_eq_of_mem_unique s.channel_players hkeys cp0 hcp0mem
      pc0.1.user_id ch hpc0key)
  have hpc0g : pc0.1.gambling = true := by rw [hpc0eq]; exact hgamb
  constructor
  · unfold storedRating
    rw [hfind2, Option.map_some']
    rw [create_undo_rating ch pcs s.next_game_id (buildPositions ranked) cp0 husers hmatch]
  · unfold storedGambling
    rw [hfind2, Option.map_some']
    rw [create_undo_gambling ch pcs s.next_game_id (buildPositions ranked) cp0 pc0
      husers hpc0 hpc0key hpc0g]

/-! ### Equational forms of the get-or-create helpers, and congruences -/

lemma get_or_create_player_players (s : Store) (u : String) :
    (get_or_create_player s u).players =
      if u ∈ s.players then s.players else s.players ++ [u] := by
  unfold get_or_create_player
  by_cases h : u ∈ s.players
  · rw [if_pos h, if_pos h]
  · rw [if_neg h, if_neg h]

lemma get_or_create_channel_fst (s : Store) (ch : String) :
    (get_or_create_channel s ch none).1 =
      match s.channels.find? (chanMatch ch) with
      | none => ⟨ch, some 32, none⟩
      | some c => c := by
  unfold get_or_create_channel
  cases hf : s.channels.find? (chanMatch ch) with
  | none => rfl
  | some c => simp [teamTruthy]

lemma get_or_create_channel_channels (s : Store) (ch : String) :
    (get_or_create_channel s ch none).2.channels =
      match s.channels.find? (chanMatch ch) with
      | none => s.channels ++ [⟨ch, some 32, none⟩]
      | some _ => s.channels := by
  unfold get_or_create_channel
  cases hf : s.channels.find? (chanMatch ch) with
  | none => rfl
  | some c => simp [teamTruthy]

lemma gocp_fst (s : Store) (u ch : String) :
    (get_or_create_channel_player s u ch).1 =
      match s.channel_players.find? (keyMatch u ch) with
      | some cp => cp
      | none => ⟨u, ch, 1000, false⟩ := by
  cases hf : s.channel_players.find? (keyMatch u ch) with
  | none => rw [gocp_not_found s u ch hf]
  | some cp => rw [gocp_found s u ch cp hf]

lemma gocp_snd_players (s : Store) (u ch : String) :
    (get_or_create_channel_player s u ch).2.players =
      if u ∈ s.players then s.players else s.players ++ [u] := by
  have h1 := (get_or_create_channel_frame (get_or_create_player s u) ch none).1
  have h2 := get_or_create_player_players s u
  cases hf : s.channel_players.find? (keyMatch u ch) with
  | none =>
    rw [gocp_not_found s u ch hf]
    show (get_or_create_channel (get_or_create_player s u) ch none).2.players = _
    rw [h1, h2]
  | some cp =>
    rw [gocp_found s u ch cp hf]
    show (get_or_create_channel (get_or_create_player s u) ch none).2.players = _
    rw [h1, h2]

lemma gocp_snd_channels (s : Store) (u ch : String) :
    (get_or_create_channel_player s u ch).2.channels =
      match s.channels.find? (chanMatch ch) with
      | none => s.channels ++ [⟨ch, some 32, none⟩]
      | some _ => s.channels := by
  have h1 := get_or_create_channel_channels (get_or_create_player s u) ch
  have h2 := (get_or_create_player_frame s u).1
  rw [h2] at h1
  cases hf : s.channel_players.find? (keyMatch u ch) with
  | none =>
    rw [gocp_not_found s u ch hf]
    show (get_or_create_channel (get_or_create_player s u) ch none).2.channels = _
    rw [h1]
  | some cp =>
    rw [gocp_found s u ch cp hf]
    rw [h1]

lemma gocp_snd_cps (s : Store) (u ch : String) :
    (get_or_create_channel_player s u ch).2.channel_players =
      match s.channel_players.find? (keyMatch u ch) with
      | some _ => s.channel_players
      | none => s.channel_players ++ [⟨u, ch, 1000, false⟩] := by
  cases hf : s.channel_players.find? (keyMatch u ch) with
  | none => rw [gocp_not_found s u ch hf]
  | some cp =>
    rw [gocp_found s u ch cp hf]
    exact gocp_channel_players_eq s u ch

lemma gocp_congr (s t : Store) (u ch : String)
    (hp : s.players = t.players) (hc : s.channels = t.channels)
    (hcp : s.channel_players = t.channel_players) :
    (get_or_create_channel_player s u ch).1 = (get_or_create_channel_player t u ch).1 ∧
    (get_or_create_channel_player s u ch).2.players =
      (get_or_create_channel_player t u ch).2.players ∧
    (get_or_create_channel_player s u ch).2.channels =
      (get_or_create_channel_player t u ch).2.channels ∧
    (get_or_create_channel_player s u ch).2.channel_players =
      (get_or_create_channel_player t u ch).2.channel_players := by
  refine ⟨?_, ?_, ?_, ?_⟩
  · rw [gocp_fst, gocp_fst, hcp]
  · rw [gocp_snd_players, gocp_snd_players, hp]
  · rw [gocp_snd_channels, gocp_snd_channels, hc]
  · rw [gocp_snd_cps, gocp_snd_cps, hcp]

lemma collect_congr (ch : String) :
    ∀ (uids : List String) (s t : Store),
      s.players = t.players → s.channels = t.channels →
      s.channel_players = t.channel_players →
      (collectChannelPlayers s uids ch).1 = (collectChannelPlayers t uids ch).1 ∧
      (collectChannelPlayers s uids ch).2.players =
        (collectChannelPlayers t uids ch).2.players ∧
      (collectChannelPlayers s uids ch).2.channels =
        (collectChannelPlayers t uids ch).2.channels ∧
      (collectChannelPlayers s uids ch).2.channel_players =
        (collectChannelPlayers t uids ch).2.channel_players := by
  intro uids
  induction uids with
  | nil =>
    intro s t hp hc hcp
    exact ⟨rfl, hp, hc, hcp⟩
  | cons u us ih =>
    intro s t hp hc hcp
    obtain ⟨g1, g2, g3, g4⟩ := gocp_congr s t u ch hp hc hcp
    obtain ⟨r1, r2, r3, r4⟩ := ih (get_or_create_channel_player s u ch).2
      (get_or_create_channel_player t u ch).2 g2 g3 g4
    refine ⟨?_, r2, r3, r4⟩
    show (get_or_create_channel_player s u ch).1 ::
        (collectChannelPlayers (get_or_create_channel_player s u ch).2 us ch).1 =
      (get_or_create_channel_player t u ch).1 ::
        (collectChannelPlayers (get_or_create_channel_player t u ch).2 us ch).1
    rw [g1, r1]

lemma collectRatings_eq (ch : String) :
    ∀ (uids : List String) (s : Store),
      (collectRatings s uids ch).1 =
        (collectChannelPlayers s uids ch).1.map (fun r => (r.user_id, r.rating)) ∧
      (collectRatings s uids ch).2 = (collectChannelPlayers s uids ch).2 := by
  intro uids
  induction uids with
  | nil => intro s; exact ⟨rfl, rfl⟩
  | cons u us ih =>
    intro s
    obtain ⟨i1, i2⟩ := ih (get_or_create_channel_player s u ch).2
    constructor
    · show (u, (get_or_create_channel_player s u ch).1.rating) ::
          (collectRatings (get_or_create_channel_player s u ch).2 us ch).1 =
        ((get_or_create_channel_player s u ch).1 ::
          (collectChannelPlayers (get_or_create_channel_player s u ch).2 us ch).1).map
          (fun r => (r.user_id, r.rating))
      rw [List.map_cons]
      have hhead : (u, (get_or_create_channel_player s u ch).1.rating) =
          ((get_or_create_channel_player s u ch).1.user_id,
           (get_or_create_channel_player s u ch).1.rating) := by
        rw [(gocp_row_user s u ch).1]
      exact congrArg₂ List.cons hhead i1
    · exact i2

lemma get_channel_k_factor_fst_congr (s t : Store) (h : s.channels = t.channels)
    (ch : String) :
    (get_channel_k_factor s ch).1 = (get_channel_k_factor t ch).1 := by
  unfold get_channel_k_factor
  show (get_or_create_channel s ch none).1.k_factor.getD 32 =
    (get_or_create_channel t ch none).1.k_factor.getD 32
  rw [get_or_create_channel_fst, get_or_create_channel_fst, h]

lemma computePost_spec (ch : String) :
    ∀ (pcs : List (ChannelPlayer × ℤ)) (s : Store),
      (∀ pc ∈ pcs, pc.1.user_id ∈ s.players ∧
        s.channel_players.find? (keyMatch pc.1.user_id ch) = some pc.1) →
      ((s.channels.find? (chanMatch ch)).isSome) →
      computePost s ch (pcs.map (fun pc => ((pc.1.user_id, pc.1.rating), pc.2))) =
        (pcs.map (fun pc => (pc.1.user_id,
          pc.1.rating + pc.2 * (if pc.1.gambling then 2 else 1))), s) := by
  intro pcs
  induction pcs with
  | nil => intro s _ _; rfl
  | cons pc rest ih =>
    intro s hall hch
    have hg : is_player_gambling s pc.1.user_id ch = (pc.1.gambling, s) := by
      have hnoop := gocp_noop s pc.1.user_id ch pc.1
        (hall pc (List.mem_cons_self pc rest)).1 hch
        (hall pc (List.mem_cons_self pc rest)).2
      unfold is_player_gambling
      rw [hnoop]
    have hih := ih s (fun pc' h' => hall pc' (List.mem_cons_of_mem pc h')) hch
    rw [List.map_cons, List.map_cons]
    show ((pc.1.user_id, pc.1.rating + pc.2 *
        (if (is_player_gambling s pc.1.user_id ch).1 then 2 else 1)) ::
        (computePost (is_player_gambling s pc.1.user_id ch).2 ch
          (rest.map (fun pc => ((pc.1.user_id, pc.1.rating), pc.2)))).1,
      (computePost (is_player_gambling s pc.1.user_id ch).2 ch
        (rest.map (fun pc => ((pc.1.user_id, pc.1.rating), pc.2)))).2) = _
    rw [hg]
    show ((pc.1.user_id, pc.1.rating + pc.2 * (if pc.1.gambling then 2 else 1)) ::
        (computePost s ch (rest.map (fun pc => ((pc.1.user_id, pc.1.rating), pc.2)))).1,
      (computePost s ch (rest.map (fun pc => ((pc.1.user_id, pc.1.rating), pc.2)))).2) = _
    rw [hih]

lemma collectRatings_frame (ch : String) :
    ∀ (uids : List String) (s : Store),
      ∃ extra : List ChannelPlayer,
        (collectRatings s uids ch).2.channel_players = s.channel_players ++ extra ∧
        (∀ cp ∈ extra, cp.rating = 1000 ∧ cp.gambling = false) ∧
        (collectRatings s uids ch).2.games = s.games ∧
        (collectRatings s uids ch).2.player_games = s.player_games := by
  intro uids
  induction uids with
  | nil =>
    intro s
    exact ⟨[], (List.append_nil _).symm, by simp, rfl, rfl⟩
  | cons u us ih =>
    intro s
    obtain ⟨e, h1, h2, h3, h4⟩ := ih (get_or_create_channel_player s u ch).2
    have hfr := gocp_frame s u ch
    have hstep : (collectRatings s (u :: us) ch).2 =
        (collectRatings (get_or_create_channel_player s u ch).2 us ch).2 := rfl
    rcases gocp_channel_players_cases s u ch with hcp | ⟨_, hcp⟩
    · refine ⟨e, ?_, h2, ?_, ?_⟩
      · rw [hstep, h1, hcp]
      · rw [hstep, h3, hfr.1]
      · rw [hstep, h4, hfr.2.1]
    · refine ⟨⟨u, ch, 1000, false⟩ :: e, ?_, ?_, ?_, ?_⟩
      · rw [hstep, h1, hcp, List.append_assoc]
        rfl
      · intro cp hcp'
        rcases List.mem_cons.mp hcp' with heq | hm
        · rw [heq]
          exact ⟨rfl, rfl⟩
        · exact h2 cp hm
      · rw [hstep, h3, hfr.1]
      · rw [hstep, h4, hfr.2.1]

lemma computePost_frame (ch : String) :
    ∀ (pcs : List ((String × ℤ) × ℤ)) (s : Store),
      ∃ extra : List ChannelPlayer,
        (computePost s ch pcs).2.channel_players = s.channel_players ++ extra ∧
        (∀ cp ∈ extra, cp.rating = 1000 ∧ cp.gambling = false) ∧
        (computePost s ch pcs).2.games = s.games ∧
        (computePost s ch pcs).2.player_games = s.player_games := by
  intro pcs
  induction pcs with
  | nil =>
    intro s
    exact ⟨[], (List.append_nil _).symm, by simp, rfl, rfl⟩
  | cons pc rest ih =>
    intro s
    obtain ⟨e, h1, h2, h3, h4⟩ := ih (is_player_gambling s pc.1.1 ch).2
    have hfr := gocp_frame s pc.1.1 ch
    have hstep : (computePost s ch (pc :: rest)).2 =
        (computePost (is_player_gambling s pc.1.1 ch).2 ch rest).2 := rfl
    have hgfr : (is_player_gambling s pc.1.1 ch).2 =
        (get_or_create_channel_player s pc.1.1 ch).2 := rfl
    rw [hgfr] at h1 h3 h4
    rcases gocp_channel_players_cases s pc.1.1 ch with hcp | ⟨_, hcp⟩
    · refine ⟨e, ?_, h2, ?_, ?_⟩
      · rw [hstep, hgfr, h1, hcp]
      · rw [hstep, hgfr, h3, hfr.1]
      · rw [hstep, hgfr, h4, hfr.2.1]
    · refine ⟨⟨pc.1.1, ch, 1000, false⟩ :: e, ?_, ?_, ?_, ?_⟩
      · rw [hstep, hgfr, h1, hcp, List.append_assoc]
        rfl
      · intro cp hcp'
        rcases List.mem_cons.mp hcp' with heq | hm
        · rw [heq]
          exact ⟨rfl, rfl⟩
        · exact h2 cp hm
      · rw [hstep, hgfr, h3, hfr.1]
      · rw [hstep, hgfr, h4, hfr.2.1]

lemma simulate_game_ok (s : Store) (ch : String) (ranked : List (List String))
    (team : Option String)
    (h2 : ¬ (flattenRanked ranked).length < 2)
    (hnd : (flattenRanked ranked).Nodup) :
    simulate_game s ch ranked team =
      ((computePost
          (get_channel_k_factor
            (collectRatings (get_or_create_channel s ch team).2
              (flattenRanked ranked) ch).2 ch).2 ch
          ((collectRatings (get_or_create_channel s ch team).2
              (flattenRanked ranked) ch).1.zip
            (calculate_group_elo_with_draws
              ((collectRatings (get_or_create_channel s ch team).2
                  (flattenRanked ranked) ch).1.map (fun p => p.2))
              ((flattenRanked ranked).map (lookupPos (buildPositions ranked)))
              (get_channel_k_factor
                (collectRatings (get_or_create_channel s ch team).2
                  (flattenRanked ranked) ch).2 ch).1))).2,
       Except.ok
        ((collectRatings (get_or_create_channel s ch team).2
            (flattenRanked ranked) ch).1,
         (computePost
            (get_channel_k_factor
              (collectRatings (get_or_create_channel s ch team).2
                (flattenRanked ranked) ch).2 ch).2 ch
            ((collectRatings (get_or_create_channel s ch team).2
                (flattenRanked ranked) ch).1.zip
              (calculate_group_elo_with_draws
                ((collectRatings (get_or_create_channel s ch team).2
                    (flattenRanked ranked) ch).1.map (fun p => p.2))
                ((flattenRanked ranked).map (lookupPos (buildPositions ranked)))
                (get_channel_k_factor
                  (collectRatings (get_or_create_channel s ch team).2
                    (flattenRanked ranked) ch).2 ch).1))).1,
         buildPositions ranked)) := by
  simp only [simulate_game]
  rw [if_neg h2, if_neg (by
    rw [not_not]
    exact ((length_eq_dedup_iff_nodup (flattenRanked ranked)).mpr hnd))]

lemma simulate_game_frame (s : Store) (ch : String) (ranked : List (List String))
    (team : Option String) :
    ∃ extra : List ChannelPlayer,
      (simulate_game s ch ranked team).1.games = s.games ∧
      (simulate_game s ch ranked team).1.player_games = s.player_games ∧
      (simulate_game s ch ranked team).1.channel_players = s.channel_players ++ extra ∧
      ∀ cp ∈ extra, cp.rating = 1000 ∧ cp.gambling = false := by
  by_cases hlen : (flattenRanked ranked).length < 2
  · have h : simulate_game s ch ranked team =
        (s, Except.error "A game must have at least 2 players") := by
      simp only [simulate_game]
      rw [if_pos hlen]
    exact ⟨[], by rw [h], by rw [h], by rw [h, List.append_nil], by simp⟩
  · by_cases hdup : (flattenRanked ranked).length = (flattenRanked ranked).dedup.length
    · have hnd : (flattenRanked ranked).Nodup :=
        (length_eq_dedup_iff_nodup _).mp hdup
      have hok := simulate_game_ok s ch ranked team hlen hnd
      have hgoc := get_or_create_channel_frame s ch team
      obtain ⟨e1, r1, r2, r3, r4⟩ := collectRatings_frame ch (flattenRanked ranked)
        (get_or_create_channel s ch team).2
      have hkf := get_or_create_channel_frame
        (collectRatings (get_or_create_channel s ch team).2 (flattenRanked ranked) ch).2
        ch none
      have hkf2 : (get_channel_k_factor
          (collectRatings (get_or_create_channel s ch team).2
            (flattenRanked ranked) ch).2 ch).2 =
          (get_or_create_channel
            (collectRatings (get_or_create_channel s ch team).2
              (flattenRanked ranked) ch).2 ch none).2 := rfl
      obtain ⟨e2, p1, p2, p3, p4⟩ := computePost_frame ch
        ((collectRatings (get_or_create_channel s ch team).2
            (flattenRanked ranked) ch).1.zip
          (calculate_group_elo_with_draws
            ((collectRatings (get_or_create_channel s ch team).2
                (flattenRanked ranked) ch).1.map (fun p => p.2))
            ((flattenRanked ranked).map (lookupPos (buildPositions ranked)))
            (get_channel_k_factor
              (collectRatings (get_or_create_channel s ch team).2
                (flattenRanked ranked) ch).2 ch).1))
        (get_channel_k_factor
          (collectRatings (get_or_create_channel s ch team).2
            (flattenRanked ranked) ch).2 ch).2
      refine ⟨e1 ++ e2, ?_, ?_, ?_, ?_⟩
      · rw [hok]
        show (computePost _ ch _).2.games = s.games
        rw [p3, hkf2, hkf.2.2.1, r3, hgoc.2.2.1]
      · rw [hok]
        show (computePost _ ch _).2.player_games = s.player_games
        rw [p4, hkf2, hkf.2.2.2.1, r4, hgoc.2.2.2.1]
      · rw [hok]
        show (computePost _ ch _).2.channel_players = s.channel_players ++ (e1 ++ e2)
        rw [p1, hkf2, hkf.2.1, r1, hgoc.2.1, List.append_assoc]
      · intro cp hcp
        rcases List.mem_append.mp hcp with hm | hm
        · exact r2 cp hm
        · exact p2 cp hm
    · have h : simulate_game s ch ranked team =
          (s, Except.error "A player cannot be in multiple positions") := by
        simp only [simulate_game]
        rw [if_neg hlen, if_pos hdup]
      exact ⟨[], by rw [h], by rw [h], by rw [h, List.append_nil], by simp⟩

lemma simulate_matches_create (s : Store) (ch : String) (ranked : List (List String))
    (team : Option String) (ts : ℤ)
    (h2 : ¬ (flattenRanked ranked).length < 2)
    (hnd : (flattenRanked ranked).Nodup)
    (hkeys : keysUnique s) :
    ∃ rows : List PlayerGame,
      (create_game s ch ranked team ts).1.player_games = s.player_games ++ rows ∧
      (create_game s ch ranked team ts).2 = Except.ok s.next_game_id ∧
      (simulate_game s ch ranked team).2 = Except.ok
        (rows.map (fun pg => (pg.user_id, pg.rating_before)),
         rows.map (fun pg => (pg.user_id, pg.rating_after)),
         buildPositions ranked) ∧
      (∀ pg ∈ rows, pg.position = lookupPos (buildPositions ranked) pg.user_id) ∧
      (∀ cp ∈ s.channel_players, cp ∈ (simulate_game s ch ranked team).1.channel_players) := by
  have hflatne : flattenRanked ranked ≠ [] := by
    intro h
    rw [h] at h2
    exact h2 (by norm_num)
  have hs1cp : (get_or_create_channel s ch team).2.channel_players = s.channel_players :=
    (get_or_create_channel_frame s ch team).2.1
  have hkeys1 : keysUnique (get_or_create_channel s ch team).2 :=
    (keysUnique_congr _ s hs1cp).mpr hkeys
  have hins := create_game_inserted_fields s ch team ts
  have hkeys2 : keysUnique (create_game_inserted s ch team ts) :=
    (keysUnique_congr _ s hins.2.1).mpr hkeys
  obtain ⟨created1, c1, c2, c3, c4, c5, c6, c7, c8, c9, c10, c11, c12, c13, c14, c15⟩ :=
    collect_spec ch (flattenRanked ranked) (get_or_create_channel s ch team).2 hnd hkeys1
  obtain ⟨created2, d1, d2, d3, d4, d5, d6, d7, d8, d9, d10, d11, d12, d13, d14, d15⟩ :=
    collect_spec ch (flattenRanked ranked) (create_game_inserted s ch team ts) hnd hkeys2
  have hcc := collect_congr ch (flattenRanked ranked) (create_game_inserted s ch team ts)
    (get_or_create_channel s ch team).2 rfl rfl rfl
  have hpres1 : (((collectChannelPlayers (get_or_create_channel s ch team).2
      (flattenRanked ranked) ch).2.channels.find? (chanMatch ch)).isSome) :=
    c15 (Or.inr hflatne)
  have hpres2 : (((collectChannelPlayers (create_game_inserted s ch team ts)
      (flattenRanked ranked) ch).2.channels.find? (chanMatch ch)).isSome) := by
    rw [hcc.2.2.1]
    exact hpres1
  have hkf1 := get_channel_k_factor_present _ ch hpres1
  have hkf2 := get_channel_k_factor_present _ ch hpres2
  have hkval := get_channel_k_factor_fst_congr _ _ hcc.2.2.1 ch
  obtain ⟨q1, q2⟩ := collectRatings_eq ch (flattenRanked ranked)
    (get_or_create_channel s ch team).2
  have hrat : (collectRatings (get_or_create_channel s ch team).2
      (flattenRanked ranked) ch).1.map (fun p => p.2) =
      (collectChannelPlayers (get_or_create_channel s ch team).2
        (flattenRanked ranked) ch).1.map (fun p => p.rating) := by
    rw [q1, List.map_map]
    rfl
  have hpos : (flattenRanked ranked).map (lookupPos (buildPositions ranked)) =
      (collectChannelPlayers (get_or_create_channel s ch team).2
        (flattenRanked ranked) ch).1.map
        (fun p => lookupPos (buildPositions ranked) p.user_id) := by
    conv_lhs => rw [← c3]
    rw [List.map_map]
    rfl
  have hcr := create_game_ok s ch ranked team ts h2 hnd
  have hcr2 : (create_game s ch ranked team ts).2 = Except.ok s.next_game_id := by
    rw [hcr]
  obtain ⟨a1, a2, a3, a4, a5, a6⟩ := applyGameUpdates_spec s.next_game_id ch
    (buildPositions ranked)
    ((collectChannelPlayers (create_game_inserted s ch team ts)
        (flattenRanked ranked) ch).1.zip
      (calculate_group_elo_with_draws
        ((collectChannelPlayers (create_game_inserted s ch team ts)
            (flattenRanked ranked) ch).1.map (fun p => p.rating))
        ((collectChannelPlayers (create_game_inserted s ch team ts)
            (flattenRanked ranked) ch).1.map
          (fun p => lookupPos (buildPositions ranked) p.user_id))
        (get_channel_k_factor (collectChannelPlayers (create_game_inserted s ch team ts)
          (flattenRanked ranked) ch).2 ch).1))
    (get_channel_k_factor (collectChannelPlayers (create_game_inserted s ch team ts)
      (flattenRanked ranked) ch).2 ch).2
  have hcpg : (create_game s ch ranked team ts).1.player_games =
      s.player_games ++
        ((collectChannelPlayers (get_or_create_channel s ch team).2
            (flattenRanked ranked) ch).1.zip
          (calculate_group_elo_with_draws
            ((collectChannelPlayers (get_or_create_channel s ch team).2
                (flattenRanked ranked) ch).1.map (fun p => p.rating))
            ((collectChannelPlayers (get_or_create_channel s ch team).2
                (flattenRanked ranked) ch).1.map
              (fun p => lookupPos (buildPositions ranked) p.user_id))
            (get_channel_k_factor (collectChannelPlayers (get_or_create_channel s ch team).2
              (flattenRanked ranked) ch).2 ch).1)).map
          (gameRow s.next_game_id (buildPositions ranked)) := by
    rw [hcr]
    dsimp only
    rw [a5, hkf2, d10, hins.2.2.2.1, hcc.1, hkval]
  refine ⟨_, hcpg, hcr2, ?_, ?_, ?_⟩
  · have hok := simulate_game_ok s ch ranked team h2 hnd
    have hchs2 : calculate_group_elo_with_draws
        ((collectRatings (get_or_create_channel s ch team).2
            (flattenRanked ranked) ch).1.map (fun p => p.2))
        ((flattenRanked ranked).map (lookupPos (buildPositions ranked)))
        (get_channel_k_factor (collectRatings (get_or_create_channel s ch team).2
          (flattenRanked ranked) ch).2 ch).1 =
        (calculate_group_elo_with_draws
          ((collectChannelPlayers (get_or_create_channel s ch team).2
              (flattenRanked ranked) ch).1.map (fun p => p.rating))
          ((collectChannelPlayers (get_or_create_channel s ch team).2
              (flattenRanked ranked) ch).1.map
            (fun p => lookupPos (buildPositions ranked) p.user_id))
          (get_channel_k_factor (collectChannelPlayers (get_or_create_channel s ch team).2
            (flattenRanked ranked) ch).2 ch).1) := by
      rw [hrat, hpos, q2]
    have hzip : (collectRatings (get_or_create_channel s ch team).2
        (flattenRanked ranked) ch).1.zip
        (calculate_group_elo_with_draws
          ((collectChannelPlayers (get_or_create_channel s ch team).2
              (flattenRanked ranked) ch).1.map (fun p => p.rating))
          ((collectChannelPlayers (get_or_create_channel s ch team).2
              (flattenRanked ranked) ch).1.map
            (fun p => lookupPos (buildPositions ranked) p.user_id))
          (get_channel_k_factor (collectChannelPlayers (get_or_create_channel s ch team).2
            (flattenRanked ranked) ch).2 ch).1) =
        ((collectChannelPlayers (get_or_create_channel s ch team).2
            (flattenRanked ranked) ch).1.zip
          (calculate_group_elo_with_draws
          ((collectChannelPlayers (get_or_create_channel s ch team).2
              (flattenRanked ranked) ch).1.map (fun p => p.rating))
          ((collectChannelPlayers (get_or_create_channel s ch team).2
              (flattenRanked ranked) ch).1.map
            (fun p => lookupPos (buildPositions ranked) p.user_id))
          (get_channel_k_factor (collectChannelPlayers (get_or_create_channel s ch team).2
            (flattenRanked ranked) ch).2 ch).1)).map
          (fun pc => ((pc.1.user_id, pc.1.rating), pc.2)) := by
      rw [q1, List.zip_map_left]
      exact List.map_congr_left (fun pc _ => by cases pc; rfl)
    have hall : ∀ pc ∈ (collectChannelPlayers (get_or_create_channel s ch team).2
          (flattenRanked ranked) ch).1.zip
          (calculate_group_elo_with_draws
          ((collectChannelPlayers (get_or_create_channel s ch team).2
              (flattenRanked ranked) ch).1.map (fun p => p.rating))
          ((collectChannelPlayers (get_or_create_channel s ch team).2
              (flattenRanked ranked) ch).1.map
            (fun p => lookupPos (buildPositions ranked) p.user_id))
          (get_channel_k_factor (collectChannelPlayers (get_or_create_channel s ch team).2
            (flattenRanked ranked) ch).2 ch).1),
        pc.1.user_id ∈ (collectChannelPlayers (get_or_create_channel s ch team).2
          (flattenRanked ranked) ch).2.players ∧
        (collectChannelPlayers (get_or_create_channel s ch team).2
          (flattenRanked ranked) ch).2.channel_players.find?
          (keyMatch pc.1.user_id ch) = some pc.1 := by
      intro pc hmem
      have hm1 : pc.1 ∈ (collectChannelPlayers (get_or_create_channel s ch team).2
          (flattenRanked ranked) ch).1 := (List.of_mem_zip hmem).1
      have hmu : pc.1.user_id ∈ flattenRanked ranked := by
        rw [← c3]
        exact List.mem_map_of_mem _ hm1
      refine ⟨c14 pc.1.user_id hmu, ?_⟩
      exact find?_eq_of_mem_unique _ c2 pc.1 (c5 pc.1 hm1) pc.1.user_id ch
        ((keyMatch_iff _ _ _).mpr ⟨rfl, c4 pc.1 hm1⟩)
    have hcp := computePost_spec ch
      ((collectChannelPlayers (get_or_create_channel s ch team).2
          (flattenRanked ranked) ch).1.zip
        (calculate_group_elo_with_draws
          ((collectChannelPlayers (get_or_create_channel s ch team).2
              (flattenRanked ranked) ch).1.map (fun p => p.rating))
          ((collectChannelPlayers (get_or_create_channel s ch team).2
              (flattenRanked ranked) ch).1.map
            (fun p => lookupPos (buildPositions ranked) p.user_id))
          (get_channel_k_factor (collectChannelPlayers (get_or_create_channel s ch team).2
            (flattenRanked ranked) ch).2 ch).1))
      (collectChannelPlayers (get_or_create_channel s ch team).2
        (flattenRanked ranked) ch).2 hall hpres1
    have hlen : (collectChannelPlayers (get_or_create_channel s ch team).2
        (flattenRanked ranked) ch).1.length ≤
        ((calculate_group_elo_with_draws
          ((collectChannelPlayers (get_or_create_channel s ch team).2
              (flattenRanked ranked) ch).1.map (fun p => p.rating))
          ((collectChannelPlayers (get_or_create_channel s ch team).2
              (flattenRanked ranked) ch).1.map
            (fun p => lookupPos (buildPositions ranked) p.user_id))
          (get_channel_k_factor (collectChannelPlayers (get_or_create_channel s ch team).2
            (flattenRanked ranked) ch).2 ch).1)).length := by
      rw [calc_group_length, List.length_map]
    have hpre : (((collectChannelPlayers (get_or_create_channel s ch team).2
          (flattenRanked ranked) ch).1.zip
          (calculate_group_elo_with_draws
          ((collectChannelPlayers (get_or_create_channel s ch team).2
              (flattenRanked ranked) ch).1.map (fun p => p.rating))
          ((collectChannelPlayers (get_or_create_channel s ch team).2
              (flattenRanked ranked) ch).1.map
            (fun p => lookupPos (buildPositions ranked) p.user_id))
          (get_channel_k_factor (collectChannelPlayers (get_or_create_channel s ch team).2
            (flattenRanked ranked) ch).2 ch).1)).map
          (gameRow s.next_game_id (buildPositions ranked))).map
        (fun pg => (pg.user_id, pg.rating_before)) =
        (collectRatings (get_or_create_channel s ch team).2
          (flattenRanked ranked) ch).1 := by
      rw [List.map_map, q1]
      conv_rhs => rw [← List.map_fst_zip (collectChannelPlayers
        (get_or_create_channel s ch team).2 (flattenRanked ranked) ch).1
        ((calculate_group_elo_with_draws
          ((collectChannelPlayers (get_or_create_channel s ch team).2
              (flattenRanked ranked) ch).1.map (fun p => p.rating))
          ((collectChannelPlayers (get_or_create_channel s ch team).2
              (flattenRanked ranked) ch).1.map
            (fun p => lookupPos (buildPositions ranked) p.user_id))
          (get_channel_k_factor (collectChannelPlayers (get_or_create_channel s ch team).2
            (flattenRanked ranked) ch).2 ch).1)) hlen]
      rw [List.map_map]
      rfl
    have hpost : (((collectChannelPlayers (get_or_create_channel s ch team).2
          (flattenRanked ranked) ch).1.zip
          (calculate_group_elo_with_draws
          ((collectChannelPlayers (get_or_create_channel s ch team).2
              (flattenRanked ranked) ch).1.map (fun p => p.rating))
          ((collectChannelPlayers (get_or_create_channel s ch team).2
              (flattenRanked ranked) ch).1.map
            (fun p => lookupPos (buildPositions ranked) p.user_id))
          (get_channel_k_factor (collectChannelPlayers (get_or_create_channel s ch team).2
            (flattenRanked ranked) ch).2 ch).1)).map
          (gameRow s.next_game_id (buildPositions ranked))).map
        (fun pg => (pg.user_id, pg.rating_after)) =
        ((collectChannelPlayers (get_or_create_channel s ch team).2
            (flattenRanked ranked) ch).1.zip
          (calculate_group_elo_with_draws
          ((collectChannelPlayers (get_or_create_channel s ch team).2
              (flattenRanked ranked) ch).1.map (fun p => p.rating))
          ((collectChannelPlayers (get_or_create_channel s ch team).2
              (flattenRanked ranked) ch).1.map
            (fun p => lookupPos (buildPositions ranked) p.user_id))
          (get_channel_k_factor (collectChannelPlayers (get_or_create_channel s ch team).2
            (flattenRanked ranked) ch).2 ch).1)).map
          (fun pc => (pc.1.user_id,
            pc.1.rating + pc.2 * (if pc.1.gambling then 2 else 1))) := by
      rw [List.map_map]
      rfl
    rw [hok]
    dsimp only
    rw [hchs2, q2, hkf1, hzip, hcp]
    dsimp only
    rw [hpre, ← hpost]
  · intro pg hpg
    rw [List.mem_map] at hpg
    obtain ⟨pc, _, hrow⟩ := hpg
    rw [← hrow]
    rfl
  · obtain ⟨extra, _, _, hcps, _⟩ := simulate_game_frame s ch ranked team
    intro cp hcp2
    rw [hcps]
    exact List.mem_append_left _ hcp2

/-! ### The statistics extremum queries -/

lemma argmax_fold_spec (f : String → ℚ) :
    ∀ (l : List String) (acc : Option String) (u : String),
      l.foldl (fun acc u => match acc with
        | none => some u
        | some v => if f v < f u then some u else some v) acc = some u →
      (u ∈ l ∨ acc = some u) ∧ (∀ v ∈ l, f v ≤ f u) ∧
      (∀ w, acc = some w → f w ≤ f u) := by
  intro l
  induction l with
  | nil =>
    intro acc u h
    refine ⟨Or.inr h, by simp, ?_⟩
    intro w hw
    rw [hw] at h
    exact le_of_eq (congrArg f (Option.some.inj h))
  | cons x xs ih =>
    intro acc u h
    rw [List.foldl_cons] at h
    obtain ⟨h1, h2, h3⟩ := ih _ u h
    have hstep : ∃ w, (match acc with
        | none => some x
        | some v => if f v < f x then some x else some v) = some w ∧
        f x ≤ f w ∧ (w = x ∨ acc = some w) ∧
        (∀ w0, acc = some w0 → f w0 ≤ f w) := by
      cases acc with
      | none =>
        exact ⟨x, rfl, le_refl _, Or.inl rfl, by simp⟩
      | some v0 =>
        by_cases hlt : f v0 < f x
        · refine ⟨x, ?_, le_refl _, Or.inl rfl, ?_⟩
          · show (if f v0 < f x then some x else some v0) = some x
            rw [if_pos hlt]
          · intro w0 h0
            rw [Option.some.inj h0] at hlt
            exact le_of_lt hlt
        · refine ⟨v0, ?_, not_lt.mp hlt, Or.inr rfl, ?_⟩
          · show (if f v0 < f x then some x else some v0) = some v0
            rw [if_neg hlt]
          · intro w0 h0
            exact le_of_eq (congrArg f (Option.some.inj h0).symm)
    obtain ⟨w, hw, hxw, hmem, hacc⟩ := hstep
    refine ⟨?_, ?_, ?_⟩
    · rcases h1 with hu | hu
      · exact Or.inl (List.mem_cons_of_mem x hu)
      · have hwu : w = u := by
          rw [hw] at hu
          exact Option.some.inj hu
        subst hwu
        rcases hmem with hx | hacc2
        · exact Or.inl (hx ▸ List.mem_cons_self x xs)
        · exact Or.inr hacc2
    · intro v hv
      rcases List.mem_cons.mp hv with heq | hv2
      · rw [heq]
        exact le_trans hxw (h3 w hw)
      · exact h2 v hv2
    · intro w0 hw0
      exact le_trans (hacc w0 hw0) (h3 w hw)

lemma argmin_fold_spec (f : String → ℚ) :
    ∀ (l : List String) (acc : Option String) (u : String),
      l.foldl (fun acc u => match acc with
        | none => some u
        | some v => if f u < f v then some u else some v) acc = some u →
      (u ∈ l ∨ acc = some u) ∧ (∀ v ∈ l, f u ≤ f v) ∧
      (∀ w, acc = some w → f u ≤ f w) := by
  intro l
  induction l with
  | nil =>
    intro acc u h
    refine ⟨Or.inr h, by simp, ?_⟩
    intro w hw
    rw [hw] at h
    exact le_of_eq (congrArg f (Option.some.inj h).symm)
  | cons x xs ih =>
    intro acc u h
    rw [List.foldl_cons] at h
    obtain ⟨h1, h2, h3⟩ := ih _ u h
    have hstep : ∃ w, (match acc with
        | none => some x
        | some v => if f x < f v then some x else some v) = some w ∧
        f w ≤ f x ∧ (w = x ∨ acc = some w) ∧
        (∀ w0, acc = some w0 → f w ≤ f w0) := by
      cases acc with
      | none =>
        exact ⟨x, rfl, le_refl _, Or.inl rfl, by simp⟩
      | some v0 =>
        by_cases hlt : f x < f v0
        · refine ⟨x, ?_, le_refl _, Or.inl rfl, ?_⟩
          · show (if f x < f v0 then some x else some v0) = some x
            rw [if_pos hlt]
          · intro w0 h0
            rw [Option.some.inj h0] at hlt
            exact le_of_lt hlt
        · refine ⟨v0, ?_, not_lt.mp hlt, Or.inr rfl, ?_⟩
          · show (if f x < f v0 then some x else some v0) = some v0
            rw [if_neg hlt]
          · intro w0 h0
            exact le_of_eq (congrArg f (Option.some.inj h0))
    obtain ⟨w, hw, hxw, hmem, hacc⟩ := hstep
    refine ⟨?_, ?_, ?_⟩
    · rcases h1 with hu | hu
      · exact Or.inl (List.mem_cons_of_mem x hu)
      · have hwu : w = u := by
          rw [hw] at hu
          exact Option.some.inj hu
        subst hwu
        rcases hmem with hx | hacc2
        · exact Or.inl (hx ▸ List.mem_cons_self x xs)
        · exact Or.inr hacc2
    · intro v hv
      rcases List.mem_cons.mp hv with heq | hv2
      · rw [heq]
        exact le_trans (h3 w hw) hxw
      · exact h2 v hv2
    · intro w0 hw0
      exact le_trans (h3 w hw) (hacc w0 hw0)

lemma argmaxBy_spec (f : String → ℚ) (l : List String) (u : String)
    (h : argmaxBy f l = some u) : u ∈ l ∧ ∀ v ∈ l, f v ≤ f u := by
  unfold argmaxBy at h
  obtain ⟨h1, h2, _⟩ := argmax_fold_spec f l none u h
  refine ⟨?_, h2⟩
  rcases h1 with h1 | h1
  · exact h1
  · simp at h1

lemma argminBy_spec (f : String → ℚ) (l : List String) (u : String)
    (h : argminBy f l = some u) : u ∈ l ∧ ∀ v ∈ l, f u ≤ f v := by
  unfold argminBy at h
  obtain ⟨h1, h2, _⟩ := argmin_fold_spec f l none u h
  refine ⟨?_, h2⟩
  rcases h1 with h1 | h1
  · exact h1
  · simp at h1

/-! ### The claims -/

/-- C1: For every recorded contest each participant's stored rating-after
should equal rating-before plus the pairwise delta (doubled when flagged).
In the code `calculate_group_elo_with_draws` returns full new ratings, yet
`create_game` adds them as if they were deltas: at equal ratings 1000 the
pairwise delta is 16 but the stored rating-after is 2016 = 1000 + 1016,
and the membership rating is updated to that same wrong value. -/
theorem rating_after_doubles_base_rating :
    (calculate_elo_win 1000 1000 32).1 - 1000 = 16 ∧
    (create_game storeAB "C" [["A"], ["B"]] none 5).1.player_games.map
      (fun pg => (pg.user_id, pg.rating_before, pg.rating_after)) =
      [("A", 1000, 2016), ("B", 1000, 1984)] ∧
    (2016 : ℤ) ≠ 1000 + 16 ∧
    storedRating (create_game storeAB "C" [["A"], ["B"]] none 5).1 "A" "C" = some 2016 := by
  refine ⟨?_, ?_, by decide, ?_⟩
  · rw [calculate_elo_win_equal]
    decide
  · rw [create_game_storeAB]
    decide
  · rw [create_game_storeAB]
    decide

/-- C2: `create_game` commits each SQL statement on its own connection, so
the state right after the `INSERT INTO games` statement is durable: it is
distinct from both the initial and the final state and violates the
invariant that every game has at least two participation rows — there is
no enclosing transaction. -/
theorem create_game_intermediate_state_commits :
    contestsHaveTwoParticipants storeAB ∧
    create_game_inserted storeAB "C" none 5 ≠ storeAB ∧
    (create_game storeAB "C" [["A"], ["B"]] none 5).1 ≠
      create_game_inserted storeAB "C" none 5 ∧
    ¬ contestsHaveTwoParticipants (create_game_inserted storeAB "C" none 5) := by
  refine ⟨by decide, by decide, ?_, by decide⟩
  rw [create_game_storeAB]
  decide

/-- C3 (amended): `calculate_elo_win` rounds each pairwise term before the
per-player division and summation; only in the two-player case does this
coincide with rounding the summed contribution once. -/
theorem two_player_change_rounds_once (a b k : ℤ) (p q : ℕ) (hpq : p < q) :
    calculate_group_elo_with_draws [a, b] [p, q] k =
      List.zipWith (· + ·) [a, b] (computeDeltasSpec [a, b] [p, q] k) :=
  calc_group_two_round_once_lt a b k p q hpq

theorem two_player_change_rounds_once_witness :
    (1 : ℕ) < 2 ∧
    calculate_group_elo_with_draws [1000, 1000] [1, 2] 32 =
      List.zipWith (· + ·) [1000, 1000] (computeDeltasSpec [1000, 1000] [1, 2] 32) :=
  ⟨by decide, two_player_change_rounds_once 1000 1000 32 1 2 (by decide)⟩

/-- C3 (counterexample): with three players rated 1000, 1010, 1012 and
k = 32, the first player's change computed with per-pair rounding is 16
while rounding once after full summation gives 17. -/
theorem per_pair_rounding_counterexample :
    (calculate_group_elo_with_draws [1000, 1010, 1012] [1, 2, 3] 32).getD 0 0 - 1000 = 16 ∧
    (computeDeltasSpec [1000, 1010, 1012] [1, 2, 3] 32).getD 0 0 = 17 := by
  refine ⟨?_, cex3_spec⟩
  rw [cex3_code]
  decide

/-- C4 (amended): when every participant already has a membership row (and
the store satisfies the key-uniqueness and id-bound invariants, with the
new timestamp past every stored one), `create_game` followed by
`undo_last_game` restores every stored rating and leaves the leaderboard
and history queries exactly as before.  Without the membership hypothesis
the pair of operations leaves the created membership rows behind (see the
counterexample). -/
theorem create_undo_restores_with_existing_memberships (s : Store) (ch : String)
    (ranked : List (List String)) (team : Option String) (ts : ℤ)
    (h2 : ¬ (flattenRanked ranked).length < 2)
    (hnd : (flattenRanked ranked).Nodup)
    (hkeys : keysUnique s)
    (hids : idsBounded s)
    (hts : ∀ g ∈ s.games, g.channel_id = ch → g.timestamp < ts)
    (hmem : ∀ u ∈ flattenRanked ranked, u ∈ s.players ∧
      (s.channel_players.find? (keyMatch u ch)).isSome) :
    (∀ u ch2, storedRating (undo_last_game (create_game s ch ranked team ts).1 ch).1 u ch2 =
      storedRating s u ch2) ∧
    (∀ ch2 n, get_channel_leaderboard (undo_last_game
        (create_game s ch ranked team ts).1 ch).1 ch2 n =
      get_channel_leaderboard s ch2 n) ∧
    (∀ u ch2 n, get_player_game_history (undo_last_game
        (create_game s ch ranked team ts).1 ch).1 u ch2 n =
      get_player_game_history s u ch2 n) := by
  obtain ⟨hok, hg, hpg, hp, hv⟩ := create_then_undo s ch ranked team ts h2 hnd hkeys hids hts hmem
  refine ⟨?_, ?_, ?_⟩
  · intro u ch2
    exact storedRating_congr _ s hv u ch2
  · intro ch2 n
    exact get_channel_leaderboard_congr _ s hp hv hpg hg ch2 n
  · intro u ch2 n
    exact get_player_game_history_congr _ s hpg hg u ch2 n

theorem create_undo_restores_witness :
    keysUnique storeAB ∧ idsBounded storeAB ∧
    (∀ u ∈ flattenRanked [["A"], ["B"]], u ∈ storeAB.players ∧
      (storeAB.channel_players.find? (keyMatch u "C")).isSome) ∧
    get_channel_leaderboard (undo_last_game
        (create_game storeAB "C" [["A"], ["B"]] none 5).1 "C").1 "C" 10 =
      get_channel_leaderboard storeAB "C" 10 :=
  ⟨by decide, by decide, by decide,
    (create_undo_restores_with_existing_memberships storeAB "C" [["A"], ["B"]] none 5
      (by decide) (by decide) (by decide) (by decide) (by decide) (by decide)).2.1 "C" 10⟩

/-- C4 (counterexample): recording a contest whose participant "B" had no
membership row and then undoing it does not restore the leaderboard — the
membership row created on the way in survives the undo. -/
theorem create_undo_changes_leaderboard :
    get_channel_leaderboard (undo_last_game
        (create_game storeA "C" [["A"], ["B"]] none 5).1 "C").1 "C" 10 ≠
      get_channel_leaderboard storeA "C" 10 := by
  rw [create_game_storeA]
  decide

/-- C5: on any store with unique membership keys, a valid ranking makes
`simulate_game` return exactly the pre-ratings, post-ratings and position
mapping that `create_game` persists in its `player_games` rows from the
same state, and simulation leaves every existing membership row (and so
every doubling flag) in place. -/
theorem simulate_agrees_with_create (s : Store) (ch : String)
    (ranked : List (List String)) (team : Option String) (ts : ℤ)
    (h2 : ¬ (flattenRanked ranked).length < 2)
    (hnd : (flattenRanked ranked).Nodup)
    (hkeys : keysUnique s) :
    ∃ rows : List PlayerGame,
      (create_game s ch ranked team ts).1.player_games = s.player_games ++ rows ∧
      (create_game s ch ranked team ts).2 = Except.ok s.next_game_id ∧
      (simulate_game s ch ranked team).2 = Except.ok
        (rows.map (fun pg => (pg.user_id, pg.rating_before)),
         rows.map (fun pg => (pg.user_id, pg.rating_after)),
         buildPositions ranked) ∧
      (∀ pg ∈ rows, pg.position = lookupPos (buildPositions ranked) pg.user_id) ∧
      (∀ cp ∈ s.channel_players, cp ∈ (simulate_game s ch ranked team).1.channel_players) :=
  simulate_matches_create s ch ranked team ts h2 hnd hkeys

theorem simulate_agrees_with_create_witness :
    ¬ (flattenRanked [["A"], ["B"]]).length < 2 ∧
    (flattenRanked [["A"], ["B"]]).Nodup ∧
    keysUnique storeAB ∧
    ∃ rows : List PlayerGame,
      (create_game storeAB "C" [["A"], ["B"]] none 5).1.player_games =
        storeAB.player_games ++ rows ∧
      (create_game storeAB "C" [["A"], ["B"]] none 5).2 = Except.ok storeAB.next_game_id ∧
      (simulate_game storeAB "C" [["A"], ["B"]] none).2 = Except.ok
        (rows.map (fun pg => (pg.user_id, pg.rating_before)),
         rows.map (fun pg => (pg.user_id, pg.rating_after)),
         buildPositions [["A"], ["B"]]) ∧
      (∀ pg ∈ rows, pg.position = lookupPos (buildPositions [["A"], ["B"]]) pg.user_id) ∧
      (∀ cp ∈ storeAB.channel_players,
        cp ∈ (simulate_game storeAB "C" [["A"], ["B"]] none).1.channel_players) :=
  ⟨by decide, by decide, by decide,
    simulate_agrees_with_create storeAB "C" [["A"], ["B"]] none 5
      (by decide) (by decide) (by decide)⟩

/-- C6: `simulate_game` never changes the `games` or `player_games` tables
and never changes an existing membership row — in particular it changes no
stored rating, no history record and no doubling flag; at most it appends
fresh membership rows with the default rating 1000 and the flag off. -/
theorem simulate_never_mutates (s : Store) (ch : String)
    (ranked : List (List String)) (team : Option String) :
    ∃ extra : List ChannelPlayer,
      (simulate_game s ch ranked team).1.games = s.games ∧
      (simulate_game s ch ranked team).1.player_games = s.player_games ∧
      (simulate_game s ch ranked team).1.channel_players = s.channel_players ++ extra ∧
      ∀ cp ∈ extra, cp.rating = 1000 ∧ cp.gambling = false :=
  simulate_game_frame s ch ranked team

/-- C7: at equal ratings 1000 with k-factor 32 and distinct positions the
pairwise calculator gives the winner +16 and the loser −16 (the code
returns the new ratings 1016 and 984). -/
theorem equal_ratings_k32_delta_sixteen (p q : ℕ) (hpq : p < q) :
    calculate_elo_win 1000 1000 32 = (1016, 984) ∧
    calculate_group_elo_with_draws [1000, 1000] [p, q] 32 = [1000 + 16, 1000 - 16] := by
  refine ⟨calculate_elo_win_equal, ?_⟩
  rw [calc_group_equal_two p q hpq]
  decide

theorem equal_ratings_k32_delta_sixteen_witness :
    (1 : ℕ) < 2 ∧
    (calculate_elo_win 1000 1000 32 = (1016, 984) ∧
     calculate_group_elo_with_draws [1000, 1000] [1, 2] 32 = [1000 + 16, 1000 - 16]) :=
  ⟨by decide, equal_ratings_k32_delta_sixteen 1 2 (by decide)⟩

/-- C8: a contest with fewer than two participants, or with a duplicated
participant, is rejected by the validations that run before any write:
`create_game` returns an error and the store is exactly the input store. -/
theorem invalid_contest_rejected_without_write (s : Store) (ch : String)
    (ranked : List (List String)) (team : Option String) (ts : ℤ)
    (h : (flattenRanked ranked).length < 2 ∨ ¬ (flattenRanked ranked).Nodup) :
    (create_game s ch ranked team ts).1 = s ∧
    ∃ msg, (create_game s ch ranked team ts).2 = Except.error msg := by
  rcases h with h | h
  · rw [create_game_short s ch ranked team ts h]
    exact ⟨rfl, _, rfl⟩
  · by_cases h2 : (flattenRanked ranked).length < 2
    · rw [create_game_short s ch ranked team ts h2]
      exact ⟨rfl, _, rfl⟩
    · rw [create_game_dup s ch ranked team ts h2 h]
      exact ⟨rfl, _, rfl⟩

theorem invalid_contest_rejected_witness :
    ((flattenRanked [["A"], ["A"]]).length < 2 ∨ ¬ (flattenRanked [["A"], ["A"]]).Nodup) ∧
    ((create_game storeAB "C" [["A"], ["A"]] none 5).1 = storeAB ∧
     ∃ msg, (create_game storeAB "C" [["A"], ["A"]] none 5).2 = Except.error msg) :=
  ⟨by decide,
    invalid_contest_rejected_without_write storeAB "C" [["A"], ["A"]] none 5 (by decide)⟩

lemma ratingChanges_storeStats_A : ratingChanges storeStats "C" "A" = [10, 10, 10] := by
  decide

lemma ratingChanges_storeStats_B : ratingChanges storeStats "C" "B" = [-6, 0, 6] := by
  decide

lemma qualifiedUsers_storeStats : qualifiedUsers storeStats "C" = ["A", "B"] := by
  decide

lemma meanSquaredChange_tens : meanSquaredChange [10, 10, 10] = 100 := by
  unfold meanSquaredChange
  norm_num

lemma meanSquaredChange_spread : meanSquaredChange [-6, 0, 6] = 24 := by
  unfold meanSquaredChange
  norm_num

lemma varianceSpec_tens : varianceSpec [10, 10, 10] = 0 := by
  unfold varianceSpec
  norm_num

lemma varianceSpec_spread : varianceSpec [-6, 0, 6] = 24 := by
  unfold varianceSpec
  norm_num

lemma most_volatile_storeStats :
    get_channel_statistics_most_volatile storeStats "C" = some "A" := by
  unfold get_channel_statistics_most_volatile
  rw [qualifiedUsers_storeStats]
  unfold argmaxBy
  rw [List.foldl_cons, List.foldl_cons, List.foldl_nil]
  show (if meanSquaredChange (ratingChanges storeStats "C" "A") <
      meanSquaredChange (ratingChanges storeStats "C" "B") then some "B"
    else some "A") = some "A"
  rw [ratingChanges_storeStats_A, ratingChanges_storeStats_B, meanSquaredChange_tens,
    meanSquaredChange_spread]
  rw [if_neg (by norm_num)]

lemma most_consistent_storeStats :
    get_channel_statistics_most_consistent storeStats "C" = some "B" := by
  unfold get_channel_statistics_most_consistent
  rw [qualifiedUsers_storeStats]
  unfold argminBy
  rw [List.foldl_cons, List.foldl_cons, List.foldl_nil]
  show (if meanSquaredChange (ratingChanges storeStats "C" "B") <
      meanSquaredChange (ratingChanges storeStats "C" "A") then some "B"
    else some "A") = some "B"
  rw [ratingChanges_storeStats_A, ratingChanges_storeStats_B, meanSquaredChange_tens,
    meanSquaredChange_spread]
  rw [if_pos (by norm_num)]

/-- C9 (amended): among the players with at least three contests,
`get_channel_statistics` reports as most volatile a player maximising the
mean of the squared rating changes (`AVG(change * change)`, the raw second
moment the SQL aliases `variance`) and as most consistent a player
minimising it — not the statistical variance (see the counterexample). -/
theorem statistics_extremal_mean_squared_change (s : Store) (ch : String) :
    (∀ u, get_channel_statistics_most_volatile s ch = some u →
      u ∈ qualifiedUsers s ch ∧ ∀ v ∈ qualifiedUsers s ch,
        meanSquaredChange (ratingChanges s ch v) ≤ meanSquaredChange (ratingChanges s ch u)) ∧
    (∀ u, get_channel_statistics_most_consistent s ch = some u →
      u ∈ qualifiedUsers s ch ∧ ∀ v ∈ qualifiedUsers s ch,
        meanSquaredChange (ratingChanges s ch u) ≤ meanSquaredChange (ratingChanges s ch v)) := by
  constructor
  · intro u h
    exact argmaxBy_spec _ _ u h
  · intro u h
    exact argminBy_spec _ _ u h

theorem statistics_extremal_witness :
    get_channel_statistics_most_volatile storeStats "C" = some "A" ∧
    meanSquaredChange (ratingChanges storeStats "C" "B") ≤
      meanSquaredChange (ratingChanges storeStats "C" "A") := by
  refine ⟨most_volatile_storeStats, ?_⟩
  exact ((statistics_extremal_mean_squared_change storeStats "C").1 "A"
    most_volatile_storeStats).2 "B" (by decide)

/-- C9 (counterexample): in `storeStats` player A's changes are
`[10, 10, 10]` (statistical variance 0) and B's are `[-6, 0, 6]`
(statistical variance 24), yet the query reports A as most volatile and B
as most consistent, because it ranks by the mean square, not the
variance. -/
theorem statistics_not_variance_counterexample :
    get_channel_statistics_most_volatile storeStats "C" = some "A" ∧
    get_channel_statistics_most_consistent storeStats "C" = some "B" ∧
    varianceSpec (ratingChanges storeStats "C" "A") <
      varianceSpec (ratingChanges storeStats "C" "B") := by
  refine ⟨most_volatile_storeStats, most_consistent_storeStats, ?_⟩
  rw [ratingChanges_storeStats_A, ratingChanges_storeStats_B, varianceSpec_tens,
    varianceSpec_spread]
  norm_num

/-- C10: undoing a contest that consumed a set doubling flag restores the
participant's rating to its pre-contest value but leaves the flag cleared:
`undo_last_game` rewrites only the rating column. -/
theorem undo_restores_rating_not_flag (s : Store) (ch : String)
    (ranked : List (List String)) (team : Option String) (ts : ℤ)
    (h2 : ¬ (flattenRanked ranked).length < 2)
    (hnd : (flattenRanked ranked).Nodup)
    (hkeys : keysUnique s)
    (hids : idsBounded s)
    (hts : ∀ g ∈ s.games, g.channel_id = ch → g.timestamp < ts)
    (hmem : ∀ u ∈ flattenRanked ranked, u ∈ s.players ∧
      (s.channel_players.find? (keyMatch u ch)).isSome)
    (u : String) (cp0 : ChannelPlayer)
    (hu : u ∈ flattenRanked ranked)
    (hfind : s.channel_players.find? (keyMatch u ch) = some cp0)
    (hgamb : cp0.gambling = true) :
    storedRating (undo_last_game (create_game s ch ranked team ts).1 ch).1 u ch =
      some cp0.rating ∧
    storedGambling (undo_last_game (create_game s ch ranked team ts).1 ch).1 u ch =
      some false :=
  create_undo_flag s ch ranked team ts h2 hnd hkeys hids hts hmem u cp0 hu hfind hgamb

theorem undo_restores_rating_not_flag_witness :
    storeABg.channel_players.find? (keyMatch "A" "C") =
      some (⟨"A", "C", 1000, true⟩ : ChannelPlayer) ∧
    (storedRating (undo_last_game (create_game storeABg "C" [["A"], ["B"]] none 5).1 "C").1
        "A" "C" = some 1000 ∧
     storedGambling (undo_last_game (create_game storeABg "C" [["A"], ["B"]] none 5).1 "C").1
        "A" "C" = some false) :=
  ⟨by decide,
    undo_restores_rating_not_flag storeABg "C" [["A"], ["B"]] none 5
      (by decide) (by decide) (by decide) (by decide) (by decide) (by decide)
      "A" ⟨"A", "C", 1000, true⟩ (by decide) (by decide) (by decide)⟩

end Slackelo
